import Mathlib

/-!
Verification development for the `hey-api-builders` repository.

The repository canonicalizes raw schema fragments into JSON-Schema-like trees
(`irToSchema` / `normalizeSchema` / `sanitizeSchema`), deduplicates them into a
registry (`registerSchemaDef` with `deepSort` / `stableStringify`), and
synthesizes mock values from them, either deterministically
(`static-mock-generator`) or from a textual Zod-style notation
(`ZodMockGenerator` in `builder-generator.ts` / `zod-generator.ts`).

This file is a shallow embedding of those functions, translated from the
TypeScript source:
* JavaScript values are modelled by `JVal`; numbers are modelled as rationals
  (`ℚ`), with `jnan` for the float NaN; `jundef` models `undefined`.
* JavaScript objects are modelled as insertion-ordered association lists.
* `Math.random()` is modelled as an explicit stream `Nat → ℚ` of values in
  `[0, 1)` together with a cursor index threaded through the generators.
* Unbounded structural recursion is modelled with an explicit fuel argument;
  out-of-fuel results are marked and every theorem supplies sufficient fuel.
* String scanning is done on `List Char`; the JavaScript regular expressions
  used by the source are small and are modelled by dedicated scanners whose
  semantics (leftmost match, greedy character classes) are spelled out at the
  definitions.
-/

/-- JavaScript runtime values as produced and consumed by the generators. -/
inductive JVal where
  | jnull : JVal
  | jundef : JVal
  | jnan : JVal
  | jbool (b : Bool) : JVal
  | jnum (q : ℚ) : JVal
  | jstr (s : String) : JVal
  | jarr (xs : List JVal) : JVal
  | jobj (kvs : List (String × JVal)) : JVal

open JVal

/-- Fuel-bounded structural equality test on `JVal` (used only to state
concrete facts; all concrete uses supply ample fuel). -/
def jeqF : Nat → JVal → JVal → Bool
  | 0, _, _ => false
  | fuel + 1, a, b =>
    match a, b with
    | jnull, jnull => true
    | jundef, jundef => true
    | jnan, jnan => true
    | jbool x, jbool y => x == y
    | jstr x, jstr y => x == y
    | jnum x, jnum y => x == y
    | jarr xs, jarr ys => xs.length == ys.length &&
        (List.zip xs ys).all (fun p => jeqF fuel p.1 p.2)
    | jobj xs, jobj ys => xs.length == ys.length &&
        (List.zip xs ys).all (fun p => p.1.1 == p.2.1 && jeqF fuel p.1.2 p.2.2)
    | _, _ => false

/-- The JavaScript `typeof` operator restricted to the values of `JVal`
(`typeof null` is `"object"`; arrays are `"object"`). -/
def jsTypeof : JVal → String
  | jnull => "object"
  | jundef => "undefined"
  | jnan => "number"
  | jbool _ => "boolean"
  | jnum _ => "number"
  | jstr _ => "string"
  | jarr _ => "object"
  | jobj _ => "object"

/-- Whether a rational is a whole number, the model of `Number.isInteger`. -/
def isWholeQ (q : ℚ) : Bool := q.den == 1

/-- First value stored under a key in an insertion-ordered association list,
the model of JavaScript property lookup `m[k]` (absent keys read as
`undefined`, modelled by `none`). -/
def lookupKV {α : Type} : List (String × α) → String → Option α
  | [], _ => none
  | (k', v) :: rest, k => if k' = k then some v else lookupKV rest k

/-- JavaScript property assignment `m[k] = v`: overwrites the value of an
existing key in place, otherwise appends a new key at the end. -/
def setKV {α : Type} : List (String × α) → String → α → List (String × α)
  | [], k, v => [(k, v)]
  | (k', v') :: rest, k, v =>
    if k' = k then (k, v) :: rest else (k', v') :: setKV rest k v

/-! ### Character-list string utilities -/

/-- JavaScript whitespace for the purposes of `String.prototype.trim`. -/
def isJsSpace (c : Char) : Bool := c = ' ' || c = '\n' || c = '\t' || c = '\r'

/-- Drop leading whitespace. -/
def dropLeadingSpace : List Char → List Char
  | [] => []
  | c :: rest => if isJsSpace c then dropLeadingSpace rest else c :: rest

/-- Model of `String.prototype.trim`. -/
def listTrim (cs : List Char) : List Char :=
  (dropLeadingSpace (dropLeadingSpace cs.reverse).reverse)

/-- Model of `String.prototype.includes` on character lists. -/
def containsSub : List Char → List Char → Bool
  | hay, needle =>
    match hay with
    | [] => needle.isEmpty
    | _ :: rest => needle.isPrefixOf hay || containsSub rest needle

/-- Model of `String.prototype.includes`. -/
def sContains (hay needle : String) : Bool := containsSub hay.data needle.data

/-- Index of the first occurrence of `needle` (model of
`String.prototype.indexOf`, with `none` for `-1`). -/
def findSubIdx : List Char → List Char → Option Nat
  | hay, needle =>
    match hay with
    | [] => if needle.isEmpty then some 0 else none
    | _ :: rest =>
      if needle.isPrefixOf hay then some 0
      else (findSubIdx rest needle).map (· + 1)

/-- Word characters, the class `\w` of JavaScript regular expressions. -/
def isWordChar (c : Char) : Bool :=
  ('a' ≤ c && c ≤ 'z') || ('A' ≤ c && c ≤ 'Z') || ('0' ≤ c && c ≤ '9') || c = '_'

/-- Digit test for the class `\d`. -/
def isDigitChar (c : Char) : Bool := '0' ≤ c && c ≤ '9'

/-- Leftmost-match scanner for the regular expressions of shape
`pre(RUN)post` used throughout the generators, where `RUN` is a nonempty
greedy run of characters satisfying `ok` and `ok` rejects the first character
of `post` (e.g. `/\.min\((\d+)\)/`, `/z\.array\(([^)]+)\)/`,
`/z\.enum\(\[([^\]]+)\]\)/`).  Because `ok` rejects the character that `post`
starts with, greedy matching with backtracking coincides with taking the
maximal run, which is what this scanner does, trying match positions left to
right exactly like the JavaScript engine. -/
def findCapture (pre : List Char) (ok : Char → Bool) (post : List Char) :
    List Char → Option (List Char)
  | [] => none
  | c :: rest =>
    match (if pre.isPrefixOf (c :: rest) then
            let afterPre := (c :: rest).drop pre.length
            let run := afterPre.takeWhile ok
            if run ≠ [] && post.isPrefixOf (afterPre.drop run.length) then
              some run
            else none
          else none) with
    | some run => some run
    | none => findCapture pre ok post rest

/-- Capture of `/\.min\((\d+)\)/`-style regexes: digits only. -/
def digitCapture (token : String) (s : String) : Option (List Char) :=
  findCapture token.data isDigitChar [')'] s.data

/-- Capture of `/\.min\(([^)]+)\)/`-style regexes: anything up to `)`. -/
def parenCapture (token : String) (s : String) : Option (List Char) :=
  findCapture token.data (fun c => c ≠ ')') [')'] s.data

/-- Parse a nonempty list of decimal digits into a natural number. -/
def digitsToNat : List Char → Nat → Nat
  | [], acc => acc
  | c :: rest, acc => digitsToNat rest (acc * 10 + (c.toNat - '0'.toNat))

/-- Model of `parseInt` on an all-digit capture. -/
def jsParseIntDigits (cs : List Char) : Nat := digitsToNat cs 0

/-- Model of `parseFloat` restricted to the decimal literals the generated
notation emits: optional sign, digits, optional fractional part.  `none`
models `NaN` (for captures that are not such a literal). -/
def jsParseFloat (cs : List Char) : Option ℚ :=
  let (sign, body) : ℚ × List Char :=
    match cs with
    | '-' :: rest => (-1, rest)
    | '+' :: rest => (1, rest)
    | _ => (1, cs)
  let intPart := body.takeWhile isDigitChar
  let afterInt := body.drop intPart.length
  match afterInt with
  | [] =>
    if intPart = [] then none
    else some (sign * (jsParseIntDigits intPart : ℚ))
  | '.' :: fracPart =>
    if fracPart.all isDigitChar && (intPart ≠ [] || fracPart ≠ []) then
      some (sign * ((jsParseIntDigits intPart : ℚ) +
        (jsParseIntDigits fracPart : ℚ) / ((10 : ℚ) ^ fracPart.length)))
    else none
  | _ => none

/-- Model of the `Number()` conversion on trimmed strings: the empty string
converts to `0`, decimal literals to their value, everything else to `NaN`
(`none`). -/
def jsNumber (cs : List Char) : Option ℚ :=
  let t := listTrim cs
  if t = [] then some 0 else jsParseFloat t

/-! ### JSON serialization (`JSON.stringify`) -/

/-- Escape one character for a JSON string literal. -/
def jsonEscapeChar (c : Char) : String :=
  if c = '"' then "\\\""
  else if c = '\\' then "\\\\"
  else if c = '\n' then "\\n"
  else if c = '\r' then "\\r"
  else if c = '\t' then "\\t"
  else String.singleton c

/-- Model of `JSON.stringify` on a string value. -/
def jsonQuote (s : String) : String :=
  "\"" ++ String.join (s.data.map jsonEscapeChar) ++ "\""

/-- Serialization of a number.  JavaScript prints decimal expansions; we print
the exact rational (integers identically, non-integers as `num/den`), which is
injective on the rationals occurring here; no claim compares the two textual
forms. -/
def ratToJsonString (q : ℚ) : String :=
  if q.den = 1 then toString q.num
  else toString q.num ++ "/" ++ toString q.den

/-- Fuel-bounded model of `JSON.stringify` (`jundef` and `jnan` serialize as
`null`, which matches `JSON.stringify` for array elements and for `NaN`). -/
def jsonStringifyF : Nat → JVal → String
  | 0, _ => ""
  | fuel + 1, v =>
    match v with
    | jnull => "null"
    | jundef => "null"
    | jnan => "null"
    | jbool b => if b then "true" else "false"
    | jnum q => ratToJsonString q
    | jstr s => jsonQuote s
    | jarr xs =>
        "[" ++ String.intercalate "," (xs.map (jsonStringifyF fuel)) ++ "]"
    | jobj kvs =>
        "\x7b" ++ String.intercalate ","
          (kvs.map (fun kv => jsonQuote kv.1 ++ ":" ++ jsonStringifyF fuel kv.2)) ++ "\x7d"

/-! ### Static mock generator
(`src/static-mock-generator.ts` and the `src/src/generators` variant; the two
agree on every function modelled here, the latter routing the format table
through `getFormatDefaultValue`). -/

/-- The constraint fields of a JSON schema node read by the static generator.
`none` models an absent (or `undefined`) field.  Length bounds are modelled as
integers (the generated schemas only ever carry integer lengths). -/
structure StaticSchema where
  format : Option String := none
  default : Option JVal := none
  examples : Option (List JVal) := none
  pattern : Option String := none
  minLength : Option Int := none
  maxLength : Option Int := none
  minimum : Option ℚ := none
  maximum : Option ℚ := none
  exclusiveMinimum : Option ℚ := none
  exclusiveMaximum : Option ℚ := none

/-- The fixed per-format literal table (`getFormatDefaultValue`). -/
def getFormatDefaultValue (format : String) : Option String :=
  if format = "uuid" then some "550e8400-e29b-41d4-a716-446655440000"
  else if format = "email" then some "user@example.com"
  else if format = "uri" then some "https://example.com"
  else if format = "url" then some "https://example.com"
  else if format = "date" then some "2024-01-01"
  else if format = "date-time" then some "2024-01-01T00:00:00.000Z"
  else if format = "phone" then some "+15551234567"
  else none

/-- Model of `generateStaticString`: format literal first, then `default`,
then first example, then a pattern placeholder, then `'a'.repeat(max(minLength, 5))`.
The result is the emitted TypeScript literal (hence JSON-quoted). -/
def generateStaticString (schema : StaticSchema) : String :=
  let fromFormat : Option String :=
    match schema.format with
    | some fmt => if fmt = "" then none else getFormatDefaultValue fmt
    | none => none
  match fromFormat with
  | some v => jsonQuote v
  | none =>
    match schema.default with
    | some v => jsonStringifyF 64 v
    | none =>
      match schema.examples with
      | some (e :: _) => jsonStringifyF 64 e
      | _ =>
        if (match schema.pattern with | some p => p != "" | none => false) then
          "\"pattern-match\""
        else
          let minLength : Int := schema.minLength.getD 5
          let targetLength : Int := max minLength 5
          jsonQuote (String.mk (List.replicate targetLength.toNat 'a'))

/-- Numeric value produced by `generateStaticNumber`: a numeric `default`,
else a numeric first example, else `min + Math.floor((max - min) / 2)` with
`min = minimum ?? 0`, `max = maximum ?? 100`.  Exclusive bounds are not read
by the source. -/
def generateStaticNumberVal (schema : StaticSchema) : ℚ :=
  match schema.default with
  | some (jnum q) => q
  | _ =>
    match schema.examples with
    | some (jnum q :: _) => q
    | _ =>
      let min : ℚ := schema.minimum.getD 0
      let max : ℚ := schema.maximum.getD 100
      min + (Int.floor ((max - min) / 2) : ℚ)

/-- Model of `generateStaticNumber` (the emitted literal). -/
def generateStaticNumber (schema : StaticSchema) : String :=
  ratToJsonString (generateStaticNumberVal schema)

/-- Numeric value produced by `generateStaticInteger`: floored `default`,
else floored first numeric example, else `min + Math.floor((max - min) / 2)`
with `min = Math.ceil(minimum ?? 0)`, `max = Math.floor(maximum ?? 100)`. -/
def generateStaticIntegerVal (schema : StaticSchema) : Int :=
  match schema.default with
  | some (jnum q) => Int.floor q
  | _ =>
    match schema.examples with
    | some (jnum q :: _) => Int.floor q
    | _ =>
      let min : Int := (schema.minimum.map (fun q => Int.ceil q)).getD 0
      let max : Int := (schema.maximum.map (fun q => Int.floor q)).getD 100
      min + Int.floor (((max : ℚ) - (min : ℚ)) / 2)

/-- Model of `generateStaticInteger` (the emitted literal). -/
def generateStaticInteger (schema : StaticSchema) : String :=
  toString (generateStaticIntegerVal schema)

/-! ### Zod textual-notation mock generator
(`ZodMockGenerator` in `src/src/generators/builder-generator.ts`; the legacy
`src/zod-generator.ts` copy differs only in the array-override handling noted
at `generateArrayMockCore`). -/

/-- The `number | false` type of the `optionalsProbability` option. -/
inductive OptProb where
  | num (q : ℚ) : OptProb
  | fls : OptProb
  deriving DecidableEq

/-- `ZodMockOptions` as supplied by callers; `none` models an absent field. -/
structure ZodMockOptions where
  useDefault : Option Bool := none
  useExamples : Option Bool := none
  alwaysIncludeOptionals : Option Bool := none
  optionalsProbability : Option OptProb := none
  omitNulls : Option Bool := none

/-- The options record after the `ZodMockGenerator` constructor applied its
`??` fallbacks. -/
structure ZodResolvedOptions where
  useDefault : Bool := false
  useExamples : Bool := false
  alwaysIncludeOptionals : Bool := false
  optionalsProbability : OptProb := OptProb.num (4/5)
  omitNulls : Bool := false

/-- The constructor of `ZodMockGenerator`: each option falls back with `??`;
in particular `optionalsProbability ?? 0.8` (an explicit `false` is *not*
`null`/`undefined`, so it survives this fallback). -/
def resolveZodOptions (o : ZodMockOptions) : ZodResolvedOptions :=
  ⟨o.useDefault.getD false, o.useExamples.getD false,
   o.alwaysIncludeOptionals.getD false,
   o.optionalsProbability.getD (OptProb.num (4/5)), o.omitNulls.getD false⟩

/-- The probability actually compared against `Math.random()` in
`generateObjectMock`: `options.optionalsProbability === false ? 0.8 : options.optionalsProbability`
(the trailing `?? 0.8` of the source is dead after the constructor fallback). -/
def zodEffectiveProbability (o : ZodResolvedOptions) : ℚ :=
  match o.optionalsProbability with
  | OptProb.fls => 4/5
  | OptProb.num q => q

/-- The `JSFOptions` accepted by the public `generateMock` entry point in
`src/index.ts`. -/
structure JSFOptions where
  useDefaultValue : Option Bool := none
  useExamplesValue : Option Bool := none
  alwaysFakeOptionals : Option Bool := none
  optionalsProbability : Option OptProb := none
  omitNulls : Option Bool := none
  requiredOnly : Option Bool := none

/-- The options record `generateMock` passes to `JSONSchemaFaker.option`. -/
structure JSFResolvedOptions where
  useDefaultValue : Bool
  useExamplesValue : Bool
  alwaysFakeOptionals : Bool
  optionalsProbability : OptProb
  omitNulls : Bool
  requiredOnly : Bool

/-- The `??` fallbacks applied by `generateMock` (`src/index.ts` lines 15-22):
`optionalsProbability: options?.optionalsProbability ?? 1` — an explicit
`false` passes through and an absent value becomes `1`. -/
def resolveJSFOptions (o : JSFOptions) : JSFResolvedOptions :=
  ⟨o.useDefaultValue.getD false, o.useExamplesValue.getD false,
   o.alwaysFakeOptionals.getD false, o.optionalsProbability.getD (OptProb.num 1),
   o.omitNulls.getD false, o.requiredOnly.getD true⟩

/-- Environment for the generator: the `Math.random()` stream (consumed at an
index threaded through the generators) and an abstract ISO-date formatter
standing for `new Date(start.getTime() + r * (end.getTime() - start.getTime())).toISOString()`
(wall clock and calendar formatting are not modelled; no claim concerns them). -/
structure GenCtx where
  rf : Nat → ℚ
  isoDateOf : ℚ → String := fun _ => "1970-01-01T00:00:00.000Z"

/-! #### Scanners of `ZodMockGenerator` -/

/-- Brace-depth scan of `extractObjectProperties`: consume characters keeping
a `{`/`}` depth count (quotes are *not* treated specially here) and return
everything strictly before the brace that closes the object. -/
def braceScanLoop : List Char → Nat → List Char → Option (List Char)
  | [], _, _ => none
  | c :: rest, depth, acc =>
    let depth' := if c == '\x7b' then depth + 1 else if c == '\x7d' then depth - 1 else depth
    if depth' == 0 then some acc.reverse
    else braceScanLoop rest depth' (c :: acc)

/-- Model of `extractObjectProperties`: find `"z.object({"`, then brace-scan
for the matching `}`; `none` models the `null` returns. -/
def extractObjectProperties (cs : List Char) : Option (List Char) :=
  match findSubIdx cs "z.object(\x7b".data with
  | none => none
  | some i => braceScanLoop (cs.drop (i + 10)) 1 []

/-- Loop of `hasBalancedBrackets`: depth over `(`/`[`/`{` vs `)`/`]`/`}`,
skipping quoted spans (with `\`-escape lookbehind), failing on a negative
depth. -/
def hbbLoop : List Char → Option Char → Int → Bool → Char → Bool
  | [], _, depth, _, _ => depth == 0
  | c :: rest, prev, depth, inString, sc =>
    if !inString && (c == '"' || c == '\'') then hbbLoop rest (some c) depth true c
    else if inString && c == sc && prev != some '\\' then hbbLoop rest (some c) depth false sc
    else if !inString && (c == '(' || c == '[' || c == '\x7b') then
      hbbLoop rest (some c) (depth + 1) inString sc
    else if !inString && (c == ')' || c == ']' || c == '\x7d') then
      (if depth - 1 < 0 then false else hbbLoop rest (some c) (depth - 1) inString sc)
    else hbbLoop rest (some c) depth inString sc

/-- Model of `hasBalancedBrackets`. -/
def hasBalancedBrackets (cs : List Char) : Bool := hbbLoop cs none 0 false ' '

/-- Full-match test for `^(\w+|"[^"]+"|'[^']+')$` (the key side of
`isCompleteProperty`). -/
def keyTokenValid (cs : List Char) : Bool :=
  (cs != [] && cs.all isWordChar) ||
  (match cs with
   | c :: rest =>
     (c == '"' || c == '\'') &&
     (match rest.reverse with
      | last :: midRev => last == c && midRev != [] && midRev.all (fun x => x != c)
      | [] => false)
   | [] => false)

/-- Model of `isCompleteProperty`: a `key: value` shape where the key is an
identifier or quoted string and the value is nonempty with balanced
brackets. -/
def isCompleteProperty (cs : List Char) : Bool :=
  match findSubIdx cs [':'] with
  | none => false
  | some colonIdx =>
    let key := listTrim (cs.take colonIdx)
    let value := listTrim (cs.drop (colonIdx + 1))
    keyTokenValid key && value.length > 0 && hasBalancedBrackets value

/-- State machine of `splitObjectProperties`: split on commas at bracket
depth 0 outside quoted spans, but only when the accumulated piece already
forms a complete property.  `prev` is the previously consumed character (the
source reads `str[i-1]` for the escape check). -/
def splitPropsLoop : List Char → Option Char → List Char → Int → Bool → Char →
    List (List Char) → List (List Char)
  | [], _, current, _, _, _, acc =>
      if listTrim current != [] then acc ++ [listTrim current] else acc
  | c :: rest, prev, current, depth, inString, sc, acc =>
    if !inString && (c == '"' || c == '\'') then
      splitPropsLoop rest (some c) (current ++ [c]) depth true c acc
    else if inString && c == sc && prev != some '\\' then
      splitPropsLoop rest (some c) (current ++ [c]) depth false sc acc
    else if !inString && (c == '(' || c == '[' || c == '\x7b') then
      splitPropsLoop rest (some c) (current ++ [c]) (depth + 1) inString sc acc
    else if !inString && (c == ')' || c == ']' || c == '\x7d') then
      splitPropsLoop rest (some c) (current ++ [c]) (depth - 1) inString sc acc
    else if !inString && c == ',' && depth == 0 &&
        listTrim current != [] && isCompleteProperty (listTrim current) then
      splitPropsLoop rest (some c) [] depth inString sc (acc ++ [listTrim current])
    else
      splitPropsLoop rest (some c) (current ++ [c]) depth inString sc acc

/-- Model of `splitObjectProperties`. -/
def splitObjectProperties (cs : List Char) : List (List Char) :=
  splitPropsLoop cs none [] 0 false ' ' []

/-- Model of the per-property regex
`^(\w+|"[^"]+"|'[^']+'):\s*(.+)$` (with the `s` flag) of
`parseObjectProperties`: parse the key token, a colon, optional whitespace
and a nonempty remainder; the returned key has all quote characters removed
(`match[1].replace(/['"]/g, '')`), the returned schema is `match[2].trim()`.
If everything after the colon is whitespace, the greedy `\s*` backtracks one
character so the capture trims to the empty schema. -/
def matchPropertyPattern (cs : List Char) : Option (String × String) :=
  let keyAndRest : Option (List Char × List Char) :=
    match cs with
    | '"' :: rest =>
      let run := rest.takeWhile (fun c => c != '"')
      (match rest.drop run.length with
       | '"' :: rest' => if run != [] then some ('"' :: (run ++ ['"']), rest') else none
       | _ => none)
    | '\'' :: rest =>
      let run := rest.takeWhile (fun c => c != '\'')
      (match rest.drop run.length with
       | '\'' :: rest' => if run != [] then some ('\'' :: (run ++ ['\'']), rest') else none
       | _ => none)
    | _ =>
      let run := cs.takeWhile isWordChar
      if run != [] then some (run, cs.drop run.length) else none
  match keyAndRest with
  | none => none
  | some (keyToken, afterKey) =>
    match afterKey with
    | ':' :: afterColon =>
      let schemaPart := dropLeadingSpace afterColon
      let key := String.mk (keyToken.filter (fun c => c != '"' && c != '\''))
      if schemaPart != [] then some (key, String.mk (listTrim schemaPart))
      else if afterColon != [] then some (key, "")
      else none
    | _ => none

/-- Model of `parseObjectProperties`. -/
def parseObjectProperties (cs : List Char) : List (String × String) :=
  (splitObjectProperties (listTrim cs)).filterMap (fun ps =>
    let t := listTrim ps
    if t = [] then none else matchPropertyPattern t)

/-- Model of the union splitter `parseUnionTypes`: split on commas at
parenthesis depth 0 (only `(` and `)` adjust the depth; brackets and quotes
are ignored).  Intermediate pieces are pushed even when empty; the final
piece only when nonempty. -/
def parseUnionTypesLoop : List Char → Int → List Char → List (List Char) → List (List Char)
  | [], _, current, acc =>
      if listTrim current != [] then acc ++ [listTrim current] else acc
  | c :: rest, depth, current, acc =>
    if c == '(' then parseUnionTypesLoop rest (depth + 1) (current ++ [c]) acc
    else if c == ')' then parseUnionTypesLoop rest (depth - 1) (current ++ [c]) acc
    else if c == ',' && depth == 0 then
      parseUnionTypesLoop rest depth [] (acc ++ [listTrim current])
    else parseUnionTypesLoop rest depth (current ++ [c]) acc

/-- Model of `parseUnionTypes`. -/
def parseUnionTypes (cs : List Char) : List (List Char) :=
  parseUnionTypesLoop cs 0 [] []

/-- Naive comma split used by `generateEnumMock`
(`enumMatch[1].split(',')`). -/
def splitOnCharAux (sep : Char) : List Char → List Char → List (List Char)
  | [], cur => [cur.reverse]
  | c :: rest, cur =>
    if c == sep then cur.reverse :: splitOnCharAux sep rest []
    else splitOnCharAux sep rest (c :: cur)

/-- Model of `String.prototype.split` on a single-character separator. -/
def splitOnChar (sep : Char) (cs : List Char) : List (List Char) :=
  splitOnCharAux sep cs []

/-- Value parser of `generateEnumMock`: strip symmetric double quotes, else
booleans, else `Number()` when not NaN, else the trimmed text itself. -/
def parseEnumValue (cs : List Char) : JVal :=
  let t := listTrim cs
  if (match t with | '"' :: _ => true | _ => false) &&
     (match t.reverse with | '"' :: _ => true | _ => false) then
    jstr (String.mk (t.drop 1).dropLast)
  else if t = "true".data then jbool true
  else if t = "false".data then jbool false
  else
    match jsNumber t with
    | some q => jnum q
    | none => jstr (String.mk t)

/-! #### Leaf generators -/

/-- The alphabet of `generateRandomString`. -/
def zodChars : List Char :=
  "ABCDEFGHIJKLMNOPQRSTUVWXYZabcdefghijklmnopqrstuvwxyz0123456789".data

/-- Model of `generateRandomString`: one `Math.random()` per character;
`charAt` out of range contributes the empty string. -/
def generateRandomString (ctx : GenCtx) : Nat → Nat → String × Nat
  | 0, idx => ("", idx)
  | len + 1, idx =>
    let i := (Int.floor (ctx.rf idx * 62)).toNat
    let c := match zodChars.get? i with
      | some ch => String.singleton ch
      | none => ""
    let (rest, idx') := generateRandomString ctx len (idx + 1)
    (c ++ rest, idx')

/-- The replacement template of `generateUUID`. -/
def uuidTemplate : List Char := "xxxxxxxx-xxxx-4xxx-yxxx-xxxxxxxxxxxx".data

/-- Hexadecimal digits for `v.toString(16)` with `v < 16`. -/
def hexChars : List Char := "0123456789abcdef".data

/-- Per-character replacement of `generateUUID`: `x` becomes a random hex
digit, `y` becomes `(r & 0x3) | 0x8`. -/
def generateUUIDAux (ctx : GenCtx) : List Char → Nat → List Char × Nat
  | [], idx => ([], idx)
  | c :: rest, idx =>
    if c == 'x' || c == 'y' then
      let rNat := (Int.floor (ctx.rf idx * 16)).toNat
      let v := if c == 'x' then rNat else (rNat &&& 3) ||| 8
      let (tail, idx') := generateUUIDAux ctx rest (idx + 1)
      (hexChars.getD v '0' :: tail, idx')
    else
      let (tail, idx') := generateUUIDAux ctx rest idx
      (c :: tail, idx')

/-- Model of `generateUUID`. -/
def generateUUID (ctx : GenCtx) (idx : Nat) : String × Nat :=
  let (cs, idx') := generateUUIDAux ctx uuidTemplate idx
  (String.mk cs, idx')

/-- Character-level lowercase (model of `String.prototype.toLowerCase` for
the ASCII names used here). -/
def strToLower (s : String) : String := String.mk (s.data.map Char.toLower)

def emailDomains : List String := ["example.com", "test.org", "demo.net", "sample.io"]

def firstNames : List String :=
  ["Alice", "Bob", "Charlie", "Diana", "Eve", "Frank", "Grace", "Henry"]

def lastNames : List String :=
  ["Smith", "Johnson", "Williams", "Brown", "Jones", "Garcia", "Miller", "Davis"]

/-- Model of `generateEmail` (with the `|| 'user'` style fallbacks for
out-of-range picks). -/
def generateEmail (ctx : GenCtx) (idx : Nat) : String × Nat :=
  let firstName := (firstNames.get? (Int.floor (ctx.rf idx * 8)).toNat).getD "user"
  let lastName := (lastNames.get? (Int.floor (ctx.rf (idx + 1) * 8)).toNat).getD "example"
  let domain := (emailDomains.get? (Int.floor (ctx.rf (idx + 2) * 4)).toNat).getD "example.com"
  (strToLower firstName ++ "." ++ strToLower lastName ++ "@" ++ domain, idx + 3)

def urlProtocols : List String := ["https", "http"]

def urlDomains : List String := ["example.com", "test.org", "demo.net", "api.sample.io"]

/-- Model of `generateURL` (no fallback in the source: an out-of-range pick
interpolates as the text `undefined`). -/
def generateURL (ctx : GenCtx) (idx : Nat) : String × Nat :=
  let protocol := (urlProtocols.get? (Int.floor (ctx.rf idx * 2)).toNat).getD "undefined"
  let domain := (urlDomains.get? (Int.floor (ctx.rf (idx + 1) * 4)).toNat).getD "undefined"
  (protocol ++ "://" ++ domain, idx + 2)

/-- Model of `generateDate`: a random instant formatted by the abstract ISO
formatter, truncated at `T` (`toISOString().split('T')[0]`). -/
def generateDate (ctx : GenCtx) (idx : Nat) : String × Nat :=
  (String.mk ((ctx.isoDateOf (ctx.rf idx)).data.takeWhile (fun c => c != 'T')), idx + 1)

/-- Model of `generateDateTime`. -/
def generateDateTime (ctx : GenCtx) (idx : Nat) : String × Nat :=
  (ctx.isoDateOf (ctx.rf idx), idx + 1)

/-- The needle of the phone-pattern test in `generateFromRegex`
(the characters of the source literal `'\\+?[1-9]\\d{1,14}'`). -/
def phonePatternNeedle : List Char := "\\+?[1-9]\\d\x7b1,14\x7d".data

/-- Model of `generateFromRegex`: extract the pattern of `/\.regex\(\/([^/]+)\/\)/`;
a pattern containing the phone shape yields `+1` plus ten random-driven
digits, anything else a ten-character random string. -/
def generateFromRegex (ctx : GenCtx) (s : String) (idx : Nat) : String × Nat :=
  match findCapture ".regex(/".data (fun c => c != '/') "/)".data s.data with
  | none => generateRandomString ctx 10 idx
  | some pattern =>
    if containsSub pattern phonePatternNeedle then
      ("+1" ++ toString (Int.floor (ctx.rf idx * 9000000000) + 1000000000), idx + 1)
    else generateRandomString ctx 10 idx

/-- Model of `generateStringMock`: format checks by substring containment in
source order, then regex, then a random string of a length drawn from
`min`/`max` captures (defaults 5/15). -/
def generateStringMock (ctx : GenCtx) (s : String) (idx : Nat) : String × Nat :=
  if sContains s ".uuid()" then generateUUID ctx idx
  else if sContains s ".email()" then generateEmail ctx idx
  else if sContains s ".url()" then generateURL ctx idx
  else if sContains s ".date()" then generateDate ctx idx
  else if sContains s ".datetime()" then generateDateTime ctx idx
  else if sContains s ".regex(" then generateFromRegex ctx s idx
  else
    let minLength : Nat := match digitCapture ".min(" s with
      | some ds => jsParseIntDigits ds
      | none => 5
    let maxLength : Nat := match digitCapture ".max(" s with
      | some ds => jsParseIntDigits ds
      | none => 15
    let targetLength : Nat :=
      (Int.floor (ctx.rf idx * ((maxLength : ℚ) - (minLength : ℚ) + 1)) +
        (minLength : Int)).toNat
    generateRandomString ctx targetLength (idx + 1)

/-- Model of `generateNumberMock` as a function of the single `Math.random()`
draw `r` it consumes: bounds from the `([^)]+)` captures of `.min`/`.max`
(defaults 0/100), then `.gt`/`.lt` override them shifted by `1` for integers
and `0.001` for numbers; the value `r * (max - min) + min` is floored for
integers and rounded to two decimals otherwise (`Math.round x = ⌊x + 1/2⌋`).
`none` models a NaN result (a capture `parseFloat` cannot read). -/
def generateNumberMock (s : String) (r : ℚ) : Option ℚ :=
  let isInt := sContains s ".int()"
  let min0 : Option ℚ := match parenCapture ".min(" s with
    | some cs => jsParseFloat cs
    | none => some (if isInt then 0 else 0)
  let max0 : Option ℚ := match parenCapture ".max(" s with
    | some cs => jsParseFloat cs
    | none => some (if isInt then 100 else 100)
  let min1 : Option ℚ := match parenCapture ".gt(" s with
    | some cs => (jsParseFloat cs).map (fun g => g + (if isInt then 1 else 1 / 1000))
    | none => min0
  let max1 : Option ℚ := match parenCapture ".lt(" s with
    | some cs => (jsParseFloat cs).map (fun l => l - (if isInt then 1 else 1 / 1000))
    | none => max0
  match min1, max1 with
  | some mn, some mx =>
    let value := r * (mx - mn) + mn
    some (if isInt then (Int.floor value : ℚ) else (Int.floor (value * 100 + 1 / 2) : ℚ) / 100)
  | _, _ => none

/-- Model of `generateEnumMock`: naive bracket capture, naive comma split,
uniform pick (an out-of-range pick reads as `undefined`). -/
def generateEnumMock (ctx : GenCtx) (s : String) (idx : Nat) : JVal × Nat :=
  match findCapture "z.enum([".data (fun c => c != ']') "])".data s.data with
  | none => (jnull, idx)
  | some capture =>
    let enumValues := (splitOnChar ',' capture).map parseEnumValue
    let i := (Int.floor (ctx.rf idx * enumValues.length)).toNat
    (enumValues.getD i jundef, idx + 1)

/-! #### Composite generators -/

/-- Include one property: generate its value with empty overrides, dropping
the key when the value is `null` and `omitNulls` is set. -/
def includeProp (recur : String → List (String × JVal) → Nat → JVal × Nat)
    (opts : ZodResolvedOptions) (mock : List (String × JVal))
    (key : String) (propSchema : String) (idx : Nat) : List (String × JVal) × Nat :=
  let (value, idx') := recur propSchema [] idx
  if (match value with | jnull => true | _ => false) && opts.omitNulls then (mock, idx')
  else (setKV mock key value, idx')

/-- Property loop of `generateObjectMock`: an override wins outright
(no random consumed); otherwise an optional property (when
`alwaysIncludeOptionals` is off) is skipped when `Math.random()` exceeds the
effective probability; included values honour `omitNulls`. -/
def processProps (recur : String → List (String × JVal) → Nat → JVal × Nat)
    (opts : ZodResolvedOptions) (ctx : GenCtx) (overrides : List (String × JVal)) :
    List (String × String) → List (String × JVal) → Nat → List (String × JVal) × Nat
  | [], mock, idx => (mock, idx)
  | (key, propSchema) :: rest, mock, idx =>
    match (match lookupKV overrides key with
           | some jundef => none
           | some v => some v
           | none => none) with
    | some v => processProps recur opts ctx overrides rest (setKV mock key v) idx
    | none =>
      if sContains propSchema ".optional()" && !opts.alwaysIncludeOptionals then
        if ctx.rf idx > zodEffectiveProbability opts then
          processProps recur opts ctx overrides rest mock (idx + 1)
        else
          let (mock', idx') := includeProp recur opts mock key propSchema (idx + 1)
          processProps recur opts ctx overrides rest mock' idx'
      else
        let (mock', idx') := includeProp recur opts mock key propSchema idx
        processProps recur opts ctx overrides rest mock' idx'

/-- Model of `generateObjectMock` (parameterized by the recursive generator
for property schemas). -/
def generateObjectMockCore (recur : String → List (String × JVal) → Nat → JVal × Nat)
    (opts : ZodResolvedOptions) (ctx : GenCtx) (s : String)
    (overrides : List (String × JVal)) (idx : Nat) : JVal × Nat :=
  match extractObjectProperties s.data with
  | none => (jobj [], idx)
  | some propertiesString =>
    let properties := parseObjectProperties propertiesString
    let (mock, idx') := processProps recur opts ctx overrides properties [] idx
    (jobj mock, idx')

/-- Override-items mapping of the array mock: object-like entries recurse
with the entry as overrides (arrays carry no string keys, hence empty
overrides), primitives pass through verbatim. -/
def mapArrayItemsAux (recur : String → List (String × JVal) → Nat → JVal × Nat)
    (itemSchema : String) : List JVal → Nat → List JVal × Nat
  | [], idx => ([], idx)
  | item :: rest, idx =>
    let (v, idx') := match item with
      | jobj kvs => recur itemSchema kvs idx
      | jarr _ => recur itemSchema [] idx
      | other => (other, idx)
    let (vs, idx'') := mapArrayItemsAux recur itemSchema rest idx'
    (v :: vs, idx'')

/-- Repeatedly generate the item schema (`Array.from({length}, ...)`). -/
def buildArrayItems (recur : String → List (String × JVal) → Nat → JVal × Nat)
    (itemSchema : String) : Nat → Nat → List JVal × Nat
  | 0, idx => ([], idx)
  | n + 1, idx =>
    let (v, idx') := recur itemSchema [] idx
    let (vs, idx'') := buildArrayItems recur itemSchema n idx'
    (v :: vs, idx'')

/-- Model of `generateArrayMock` (the `src/src/generators` variant: an
`overrides.items` array maps the items; otherwise a random length between the
`(\d+)` captures of `.min`/`.max`, defaults 1/3).  The item schema is the
naive capture of `/z\.array\(([^)]+)\)/` — everything before the *first*
closing parenthesis. -/
def generateArrayMockCore (recur : String → List (String × JVal) → Nat → JVal × Nat)
    (ctx : GenCtx) (s : String) (overrides : List (String × JVal)) (idx : Nat) : JVal × Nat :=
  match parenCapture "z.array(" s with
  | none => (jarr [], idx)
  | some itemChars =>
    let itemSchema := String.mk itemChars
    match lookupKV overrides "items" with
    | some (jarr items) =>
      let (vs, idx') := mapArrayItemsAux recur itemSchema items idx
      (jarr vs, idx')
    | _ =>
      let minLength : Nat := match digitCapture ".min(" s with
        | some ds => jsParseIntDigits ds
        | none => 1
      let maxLength : Nat := match digitCapture ".max(" s with
        | some ds => jsParseIntDigits ds
        | none => 3
      let length : Nat :=
        (Int.floor (ctx.rf idx * ((maxLength : ℚ) - (minLength : ℚ) + 1)) +
          (minLength : Int)).toNat
      let (vs, idx') := buildArrayItems recur itemSchema length (idx + 1)
      (jarr vs, idx')

/-- Model of `generateUnionMock`: naive bracket capture, paren-depth split,
uniform branch pick forwarding the overrides. -/
def generateUnionMockCore (recur : String → List (String × JVal) → Nat → JVal × Nat)
    (ctx : GenCtx) (s : String) (overrides : List (String × JVal)) (idx : Nat) : JVal × Nat :=
  match findCapture "z.union([".data (fun c => c != ']') "])".data s.data with
  | none => (jnull, idx)
  | some u =>
    let unionTypes := parseUnionTypes u
    if unionTypes.length == 0 then (jnull, idx)
    else
      let i := (Int.floor (ctx.rf idx * unionTypes.length)).toNat
      match unionTypes.get? i with
      | none => (jnull, idx + 1)
      | some t => recur (String.mk t) overrides (idx + 1)

/-- Model of `generateFromSchemaString`: dispatch by substring containment in
source order (object, array, enum, string, number, boolean, union, null),
falling back to `null`.  The fuel bounds the recursion depth; every theorem
supplies sufficient fuel. -/
def generateFromSchemaStringF :
    Nat → ZodResolvedOptions → GenCtx → String → List (String × JVal) → Nat → JVal × Nat
  | 0, _, _, _, _, idx => (jnull, idx)
  | fuel + 1, opts, ctx, s, overrides, idx =>
    if sContains s "z.object(" then
      generateObjectMockCore (generateFromSchemaStringF fuel opts ctx) opts ctx s overrides idx
    else if sContains s "z.array(" then
      generateArrayMockCore (generateFromSchemaStringF fuel opts ctx) ctx s overrides idx
    else if sContains s "z.enum(" then generateEnumMock ctx s idx
    else if sContains s "z.string()" then
      let (v, idx') := generateStringMock ctx s idx
      (jstr v, idx')
    else if sContains s "z.number()" then
      (match generateNumberMock s (ctx.rf idx) with
       | some q => jnum q
       | none => jnan, idx + 1)
    else if sContains s "z.boolean()" then
      (jbool (if (1 : ℚ) / 2 < ctx.rf idx then true else false), idx + 1)
    else if sContains s "z.union(" then
      generateUnionMockCore (generateFromSchemaStringF fuel opts ctx) ctx s overrides idx
    else if sContains s "z.null()" then
      ((if opts.omitNulls then jundef else jnull), idx)
    else (jnull, idx)

/-- Model of the exported `generateMockFromZodSchema` entry point. -/
def generateMockFromZodSchema (fuel : Nat) (ctx : GenCtx) (zodSchemaString : String)
    (overrides : List (String × JVal)) (options : ZodMockOptions) : JVal :=
  (generateFromSchemaStringF fuel (resolveZodOptions options) ctx zodSchemaString overrides 0).1

/-! ### Registry and structural hashing
(`deepSort`, `stableStringify`, `registerSchemaDef` in the shared utility
module). -/

/-- Code-point comparison of strings.  The source key comparator is
`a[0].localeCompare(b[0])`; for deduplication any fixed total order works and
the keys occurring here are plain ASCII identifiers, on which the default
locale collation and code-point order agree. -/
def strLeB : List Char → List Char → Bool
  | [], _ => true
  | _ :: _, [] => false
  | a :: as, b :: bs => if a = b then strLeB as bs else Nat.ble a.toNat b.toNat

/-- Stable insertion step for the key sort. -/
def sortInsertKV (x : String × JVal) : List (String × JVal) → List (String × JVal)
  | [] => [x]
  | y :: ys => if strLeB x.1.data y.1.data then x :: y :: ys else y :: sortInsertKV x ys

/-- Stable sort of object entries by key (model of
`entries.sort((a, b) => a[0].localeCompare(b[0]))`; stability is irrelevant
because object keys are unique). -/
def sortByKey : List (String × JVal) → List (String × JVal)
  | [] => []
  | x :: xs => sortInsertKV x (sortByKey xs)

/-- Model of `deepSort`: arrays map recursively; object entries drop
`undefined` values, sort by key and recurse into the values; scalars pass
through. -/
def deepSortF : Nat → JVal → JVal
  | 0, v => v
  | fuel + 1, v =>
    match v with
    | jarr xs => jarr (xs.map (deepSortF fuel))
    | jobj kvs => jobj
        ((sortByKey (kvs.filter (fun kv =>
            match kv.2 with | jundef => false | _ => true))).map
          (fun kv => (kv.1, deepSortF fuel kv.2)))
    | x => x

/-- Model of `stableStringify`: `JSON.stringify(deepSort(obj))`. -/
def stableStringify (fuel : Nat) (obj : JVal) : String :=
  jsonStringifyF fuel (deepSortF fuel obj)

/-- Model of `getSchemaConstName`. -/
def getSchemaConstName (typeName : String) : String := typeName ++ "SchemaDef"

/-- The registry state of `registerSchemaDef`. -/
structure RegistrationContext where
  schemaDefs : List (String × JVal) := []
  schemaDefNames : List (String × String) := []
  schemaDefHashes : List (String × String) := []
  schemaDefIndex : Nat := 0

/-- Model of `registerSchemaDef`: hash the schema with `stableStringify`; a
hash hit returns the existing symbol unchanged, otherwise a fresh symbol is
minted from the type name (suffixed with the running index when that type
name was already used) and the schema is stored.  The JavaScript truthiness
tests on the lookups behave as presence tests here because every stored
symbol is a nonempty string. -/
def registerSchemaDef (fuel : Nat) (schema : JVal) (typeName : String)
    (ctx : RegistrationContext) : String × RegistrationContext :=
  let stable := stableStringify fuel schema
  match lookupKV ctx.schemaDefHashes stable with
  | some existing => (existing, ctx)
  | none =>
    let baseName := getSchemaConstName typeName
    let (suffix, newIndex) :=
      match lookupKV ctx.schemaDefNames typeName with
      | some _ => ("_" ++ toString ctx.schemaDefIndex, ctx.schemaDefIndex + 1)
      | none => ("", ctx.schemaDefIndex)
    let constName := baseName ++ suffix
    (constName,
     { schemaDefs := setKV ctx.schemaDefs constName schema,
       schemaDefNames := setKV ctx.schemaDefNames typeName constName,
       schemaDefHashes := setKV ctx.schemaDefHashes stable constName,
       schemaDefIndex := newIndex })

/-! ### Schema normalization
(`normalizeSchema` in `src/src/core/schema-transformer.ts`; nodes are plain
JavaScript objects, modelled as `jobj` association lists). -/

/-- Remove a property (model of `delete node.k`; keys are unique in every
node built here). -/
def removeKV {α : Type} (l : List (String × α)) (k : String) : List (String × α) :=
  l.filter (fun kv => kv.1 ≠ k)

/-- Test `node.type === t` for a field list. -/
def isTypeStr (kvs : List (String × JVal)) (t : String) : Bool :=
  match lookupKV kvs "type" with
  | some (jstr t') => t' == t
  | _ => false

/-- The discriminator `v === null ? 'null' : typeof v` used for enum value
kinds. -/
def jsKindOf (v : JVal) : String :=
  match v with
  | jnull => "null"
  | _ => jsTypeof v

/-- Insertion-ordered deduplication, the model of `new Set(list)` iterated
with the spread operator. -/
def jsSetAux : List String → List String → List String
  | acc, [] => acc
  | acc, k :: rest => jsSetAux (if k ∈ acc then acc else acc ++ [k]) rest

/-- Model of `[...new Set(list)]`. -/
def jsSetList (l : List String) : List String := jsSetAux [] l

/-- The type-inference step of the `type: 'enum'` arm of `normalizeSchema`:
one shared primitive kind is kept (refined from `number` to `integer` when
every value is whole, and degraded from `object` to `string`), mixed kinds
become `string`. -/
def normalizeEnumInferredType (enumValues : List JVal) : String :=
  let primitiveTypes := jsSetList (enumValues.map jsKindOf)
  let inferred0 := if primitiveTypes.length == 1 then primitiveTypes.headD "string" else "string"
  let inferred1 :=
    if inferred0 == "number" &&
        enumValues.all (fun v => match v with | jnum q => isWholeQ q | _ => false) then
      "integer"
    else inferred0
  if inferred1 == "object" then "string" else inferred1

/-- Model of `normalizeSchema`: rewrite the internal `type: 'enum'` encoding
into `type` + `enum`, normalize enum-typed tuple items, turn an all-primitive
`array` item tuple into an `anyOf`, then recurse into `properties`, `items`
and the composition lists.  Non-object nodes are returned unchanged. -/
def normalizeSchemaF : Nat → JVal → JVal
  | 0, v => v
  | fuel + 1, node =>
    match node with
    | jobj kvs0 =>
      let wn := kvs0
      let wn :=
        if isTypeStr wn "enum" then
          let enumValues : List JVal :=
            match lookupKV wn "items" with
            | some (jarr items) => items.filterMap (fun it =>
                match it with
                | jobj ikvs => lookupKV ikvs "const"
                | _ => none)
            | _ => []
          let wn' :=
            if !enumValues.isEmpty then
              setKV (setKV wn "type" (jstr (normalizeEnumInferredType enumValues)))
                "enum" (jarr enumValues)
            else setKV wn "type" (jstr "string")
          removeKV (removeKV wn' "items") "logicalOperator"
        else wn
      let wn :=
        match lookupKV wn "items" with
        | some (jarr items) =>
          if items.any (fun it =>
              match it with | jobj ikvs => isTypeStr ikvs "enum" | _ => false) then
            setKV wn "items" (jarr (items.map (fun it =>
              match it with
              | jobj ikvs => if isTypeStr ikvs "enum" then normalizeSchemaF fuel it else it
              | _ => it)))
          else wn
        | _ => wn
      let wn :=
        if isTypeStr wn "array" then
          match lookupKV wn "items" with
          | some (jarr items) =>
            if !items.isEmpty && items.all (fun it =>
                match it with
                | jobj ikvs =>
                  isTypeStr ikvs "string" || isTypeStr ikvs "null" ||
                  isTypeStr ikvs "number" || isTypeStr ikvs "integer" ||
                  isTypeStr ikvs "boolean" || isTypeStr ikvs "object"
                | _ => false) then
              removeKV (removeKV (setKV wn "anyOf" (jarr items)) "type") "items"
            else wn
          | _ => wn
        else wn
      let wn :=
        match lookupKV wn "properties" with
        | some (jobj props) =>
          setKV wn "properties" (jobj (props.map (fun kv => (kv.1, normalizeSchemaF fuel kv.2))))
        | _ => wn
      let wn :=
        match lookupKV wn "items" with
        | some (jarr items) => setKV wn "items" (jarr (items.map (normalizeSchemaF fuel)))
        | some (jobj ikvs) => setKV wn "items" (normalizeSchemaF fuel (jobj ikvs))
        | _ => wn
      let wn :=
        match lookupKV wn "allOf" with
        | some (jarr xs) => setKV wn "allOf" (jarr (xs.map (normalizeSchemaF fuel)))
        | _ => wn
      let wn :=
        match lookupKV wn "anyOf" with
        | some (jarr xs) => setKV wn "anyOf" (jarr (xs.map (normalizeSchemaF fuel)))
        | _ => wn
      let wn :=
        match lookupKV wn "oneOf" with
        | some (jarr xs) => setKV wn "oneOf" (jarr (xs.map (normalizeSchemaF fuel)))
        | _ => wn
      jobj wn
    | v => v

/-! ### Schema canonicalizer
(`irToSchema` in `src/utils.ts` / `src/src/core/schema-transformer.ts`; the
two agree in structure).  Raw fragments live in a heap of `IRNode`s addressed
by index, modelling JavaScript object identity: the `seen` set of the source
is a `Set` of object references, modelled as a list of heap indices.  The
`Set` is mutated in place and shared by the entire traversal, so the
embedding threads the updated `seen` through every recursive call and returns
it. -/

structure IRNode where
  ref : Option String := none
  enum : Option (List JVal) := none
  typ : Option String := none
  nullable : Bool := false
  constVal : Option JVal := none
  properties : Option (List (String × Nat)) := none
  required : Option (List String) := none
  additionalProperties : Option (Sum Bool Nat) := none
  items : Option (Sum Nat (List Nat)) := none
  allOf : Option (List Nat) := none
  anyOf : Option (List Nat) := none
  oneOf : Option (List Nat) := none
  scalars : List (String × JVal) := []

/-- Model of `isEnum`: an explicit `enum` array, the internal `type: 'enum'`
tag, or a nonempty `items` array whose entries all carry `const`. -/
def isEnumIR (heap : List IRNode) (ir : IRNode) : Bool :=
  ir.enum.isSome ||
  ir.typ == some "enum" ||
  (!ir.enum.isSome &&
    (match ir.items with
     | some (Sum.inr ids) =>
       !ids.isEmpty && ids.all (fun i =>
         match heap.get? i with
         | some n => n.constVal.isSome
         | none => false)
     | _ => false))

/-- Collect the `const` values of an item list
(`items.filter('const' in it).map(it => it.const)`). -/
def enumConstsOf (heap : List IRNode) (ids : List Nat) : List JVal :=
  ids.filterMap (fun i => (heap.get? i).bind (fun n => n.constVal))

/-- The early enum-unification returns of `irToSchema`: each produces
`{anyOf: values.map(v => ({const: v}))}`; `none` means fall through to the
general construction. -/
def irEnumResult (heap : List IRNode) (ir : IRNode) : Option JVal :=
  if isEnumIR heap ir then
    match ir.enum with
    | some vs => some (jobj [("anyOf", jarr (vs.map (fun v => jobj [("const", v)])))])
    | none =>
      let second : Option JVal :=
        if ir.typ == some "enum" then
          match ir.items with
          | some (Sum.inr ids) =>
            let vs := enumConstsOf heap ids
            if !vs.isEmpty then
              some (jobj [("anyOf", jarr (vs.map (fun v => jobj [("const", v)])))])
            else none
          | _ => none
        else none
      match second with
      | some out => some out
      | none =>
        match ir.items with
        | some (Sum.inr ids) =>
          if !ids.isEmpty && ids.all (fun i =>
              match heap.get? i with
              | some n => n.constVal.isSome
              | none => false) then
            some (jobj [("anyOf", jarr ((enumConstsOf heap ids).map
              (fun v => jobj [("const", v)])))])
          else none
        | _ => none
  else none

/-- The fixed list of scalar keywords copied verbatim at the end of
`irToSchema`. -/
def irCopyKeys : List String :=
  ["format", "pattern", "minimum", "maximum", "exclusiveMinimum", "exclusiveMaximum",
   "minLength", "maxLength", "minItems", "maxItems", "uniqueItems",
   "minProperties", "maxProperties", "title", "description", "default",
   "deprecated", "readOnly", "writeOnly", "example"]

/-- The scalar-copy loop (`example` is renamed to a one-element `examples`). -/
def irScalarFields (ir : IRNode) : List (String × JVal) :=
  irCopyKeys.filterMap (fun k =>
    (lookupKV ir.scalars k).map (fun v =>
      if k = "example" then ("examples", jarr [v]) else (k, v)))

/-- Model of `'$ref'.replace('#/components/schemas/', '')` (replace the first
occurrence). -/
def replaceFirstSub (cs needle : List Char) : List Char :=
  match findSubIdx cs needle with
  | none => cs
  | some i => cs.take i ++ cs.drop (i + needle.length)

/-- Strip the schema-pointer prefix from a `$ref`. -/
def stripSchemasPrefix (r : String) : String :=
  String.mk (replaceFirstSub r.data "#/components/schemas/".data)

/-- Canonicalize a list of child fragments left to right, threading the
shared `seen` set. -/
def seqChildren (f : List Nat → Nat → Option (JVal × List Nat)) :
    List Nat → List Nat → Option (List JVal × List Nat)
  | seen, [] => some ([], seen)
  | seen, id :: rest =>
    match f seen id with
    | none => none
    | some (v, seen') =>
      match seqChildren f seen' rest with
      | none => none
      | some (vs, seen'') => some (v :: vs, seen'')

/-- Canonicalize the named properties left to right, threading `seen`. -/
def seqProps (f : List Nat → Nat → Option (JVal × List Nat)) :
    List Nat → List (String × Nat) → Option (List (String × JVal) × List Nat)
  | seen, [] => some ([], seen)
  | seen, (k, cid) :: rest =>
    match f seen cid with
    | none => none
    | some (v, seen') =>
      match seqProps f seen' rest with
      | none => none
      | some (vs, seen'') => some ((k, v) :: vs, seen'')

/-- The `properties` step of the construction: canonicalize each named child
left to right, threading `seen`; `none` in the first component means the
keyword is absent on this fragment. -/
def irPropsStage (recur : List Nat → Nat → Option (JVal × List Nat))
    (ir : IRNode) (seen : List Nat) :
    Option (Option (List (String × JVal)) × List Nat) :=
  match ir.properties with
  | some kvs => (seqProps recur seen kvs).map (fun p => (some p.1, p.2))
  | none => some (none, seen)

/-- The `additionalProperties` step: a boolean is copied verbatim, a schema
child is canonicalized. -/
def irApStage (recur : List Nat → Nat → Option (JVal × List Nat))
    (ir : IRNode) (seen : List Nat) : Option (Option JVal × List Nat) :=
  match ir.additionalProperties with
  | some (Sum.inl b) => some (some (jbool b), seen)
  | some (Sum.inr aid) => (recur seen aid).map (fun p => (some p.1, p.2))
  | none => some (none, seen)

/-- The `items` step: a single item schema or a tuple list. -/
def irItemsStage (recur : List Nat → Nat → Option (JVal × List Nat))
    (ir : IRNode) (seen : List Nat) : Option (Option JVal × List Nat) :=
  match ir.items with
  | some (Sum.inl iid) => (recur seen iid).map (fun p => (some p.1, p.2))
  | some (Sum.inr ids) => (seqChildren recur seen ids).map (fun p => (some (jarr p.1), p.2))
  | none => some (none, seen)

/-- The `allOf`/`anyOf`/`oneOf` step: canonicalize the branch list. -/
def irListStage (recur : List Nat → Nat → Option (JVal × List Nat))
    (branches : Option (List Nat)) (seen : List Nat) : Option (Option JVal × List Nat) :=
  match branches with
  | some ids => (seqChildren recur seen ids).map (fun p => (some (jarr p.1), p.2))
  | none => some (none, seen)

/-- The general (non-`$ref`, non-enum) construction of `irToSchema`: build
the output object field by field in source order, recursing into
`properties`, `additionalProperties`, `items` and the composition lists,
threading `seen` through the stage helpers above. -/
def irToSchemaBody (heap : List IRNode) (recur : List Nat → Nat → Option (JVal × List Nat))
    (ir : IRNode) (seen1 : List Nat) : Option (JVal × List Nat) :=
  match irEnumResult heap ir with
  | some out => some (out, seen1)
  | none =>
    let typeField0 : Option JVal :=
      match ir.typ with
      | some t => some (jstr t)
      | none =>
        if ir.properties.isSome then some (jstr "object")
        else if ir.items.isSome then some (jstr "array")
        else none
    let typeField : Option JVal :=
      if ir.nullable then
        match typeField0 with
        | some (jstr t) => some (jarr [jstr t, jstr "null"])
        | x => x
      else typeField0
    let out0 : List (String × JVal) :=
      match typeField with
      | some tv => [("type", tv)]
      | none => []
    match irPropsStage recur ir seen1 with
    | none => none
    | some (propsOut, seen2) =>
      let out1 := match propsOut with
        | some pls => out0 ++ [("properties", jobj pls)]
        | none => out0
      let out2 := match ir.required with
        | some reqs =>
          if reqs.length ≠ 0 then out1 ++ [("required", jarr (reqs.map jstr))] else out1
        | none => out1
      match irApStage recur ir seen2 with
      | none => none
      | some (apOut, seen3) =>
        let out3 := match apOut with
          | some v => out2 ++ [("additionalProperties", v)]
          | none => out2
        match irItemsStage recur ir seen3 with
        | none => none
        | some (itemsOut, seen4) =>
          let out4 := match itemsOut with
            | some v => out3 ++ [("items", v)]
            | none => out3
          match irListStage recur ir.allOf seen4 with
          | none => none
          | some (allOut, seen5) =>
            let out5 := match allOut with
              | some v => out4 ++ [("allOf", v)]
              | none => out4
            match irListStage recur ir.anyOf seen5 with
            | none => none
            | some (anyOut, seen6) =>
              let out6 := match anyOut with
                | some v => out5 ++ [("anyOf", v)]
                | none => out5
              match irListStage recur ir.oneOf seen6 with
              | none => none
              | some (oneOut, seen7) =>
                let out7 := match oneOut with
                  | some v => out6 ++ [("oneOf", v)]
                  | none => out6
                some (jobj (out7 ++ irScalarFields ir), seen7)

/-- Model of `irToSchema`.  Cycle handling as in the source: invalid input
and a `seen` hit return `{}` immediately; otherwise the node is added to
`seen` *before* `$ref` resolution and the recursion, and — because the
JavaScript `Set` is shared — it is never removed afterwards.  The fuel bounds
the call depth; `heap.length + 1` always suffices (see the theorems). -/
def irToSchemaF (heap : List IRNode) (all : List (String × Nat)) :
    Nat → List Nat → Nat → Option (JVal × List Nat)
  | 0, _, _ => none
  | fuel + 1, seen, id =>
    match heap.get? id with
    | none => some (jobj [], seen)
    | some ir =>
      if id ∈ seen then some (jobj [], seen)
      else
        let seen1 := id :: seen
        match ir.ref with
        | some r =>
          if r = "" then irToSchemaBody heap (irToSchemaF heap all fuel) ir seen1
          else
            match lookupKV all (stripSchemasPrefix r) with
            | some tid => irToSchemaF heap all fuel seen1 tid
            | none => some (jobj [], seen1)
        | none => irToSchemaBody heap (irToSchemaF heap all fuel) ir seen1

/-- Modelled from the spec: the stack-scoped reading of the cycle guard in
which `seen` is "a set of raw-fragment identities currently being
canonicalized on the active call stack" — a child's additions to `seen` are
discarded when that child returns, so only ancestors of the current fragment
are ever in `seen`.  Structure otherwise identical to `irToSchemaF`. -/
def irToSchemaStackBody (heap : List IRNode) (recur : Nat → Option JVal)
    (ir : IRNode) : Option JVal :=
  match irEnumResult heap ir with
  | some out => some out
  | none =>
    let typeField0 : Option JVal :=
      match ir.typ with
      | some t => some (jstr t)
      | none =>
        if ir.properties.isSome then some (jstr "object")
        else if ir.items.isSome then some (jstr "array")
        else none
    let typeField : Option JVal :=
      if ir.nullable then
        match typeField0 with
        | some (jstr t) => some (jarr [jstr t, jstr "null"])
        | x => x
      else typeField0
    let out0 : List (String × JVal) :=
      match typeField with
      | some tv => [("type", tv)]
      | none => []
    match (match ir.properties with
           | some kvs =>
             ((kvs.mapM (fun kv => (recur kv.2).map (fun v => (kv.1, v)))).map some)
           | none => some none :
           Option (Option (List (String × JVal)))) with
    | none => none
    | some propsOut =>
      let out1 := match propsOut with
        | some pls => out0 ++ [("properties", jobj pls)]
        | none => out0
      let out2 := match ir.required with
        | some reqs =>
          if reqs.length ≠ 0 then out1 ++ [("required", jarr (reqs.map jstr))] else out1
        | none => out1
      match (match ir.additionalProperties with
             | some (Sum.inl b) => some (some (jbool b))
             | some (Sum.inr aid) => (recur aid).map some
             | none => some none : Option (Option JVal)) with
      | none => none
      | some apOut =>
        let out3 := match apOut with
          | some v => out2 ++ [("additionalProperties", v)]
          | none => out2
        match (match ir.items with
               | some (Sum.inl iid) => (recur iid).map some
               | some (Sum.inr ids) => ((ids.mapM recur).map (fun vs => some (jarr vs)))
               | none => some none : Option (Option JVal)) with
        | none => none
        | some itemsOut =>
          let out4 := match itemsOut with
            | some v => out3 ++ [("items", v)]
            | none => out3
          match (match ir.allOf with
                 | some ids => ((ids.mapM recur).map (fun vs => some (jarr vs)))
                 | none => some none : Option (Option JVal)) with
          | none => none
          | some allOut =>
            let out5 := match allOut with
              | some v => out4 ++ [("allOf", v)]
              | none => out4
            match (match ir.anyOf with
                   | some ids => ((ids.mapM recur).map (fun vs => some (jarr vs)))
                   | none => some none : Option (Option JVal)) with
            | none => none
            | some anyOut =>
              let out6 := match anyOut with
                | some v => out5 ++ [("anyOf", v)]
                | none => out5
              match (match ir.oneOf with
                     | some ids => ((ids.mapM recur).map (fun vs => some (jarr vs)))
                     | none => some none : Option (Option JVal)) with
              | none => none
              | some oneOut =>
                let out7 := match oneOut with
                  | some v => out6 ++ [("oneOf", v)]
                  | none => out6
                some (jobj (out7 ++ irScalarFields ir))

/-- Modelled from the spec: stack-scoped canonicalization (see
`irToSchemaStackBody`). -/
def irToSchemaStackF (heap : List IRNode) (all : List (String × Nat)) :
    Nat → List Nat → Nat → Option JVal
  | 0, _, _ => none
  | fuel + 1, seen, id =>
    match heap.get? id with
    | none => some (jobj [])
    | some ir =>
      if id ∈ seen then some (jobj [])
      else
        let seen1 := id :: seen
        match ir.ref with
        | some r =>
          if r = "" then irToSchemaStackBody heap (irToSchemaStackF heap all fuel seen1) ir
          else
            match lookupKV all (stripSchemasPrefix r) with
            | some tid => irToSchemaStackF heap all fuel seen1 tid
            | none => some (jobj [])
        | none => irToSchemaStackBody heap (irToSchemaStackF heap all fuel seen1) ir

/-! ### Auxiliary definitions used by the theorems -/

/-- Field access on an object value (`undefined` on non-objects). -/
def jGetField (v : JVal) (k : String) : Option JVal :=
  match v with
  | jobj kvs => lookupKV kvs k
  | _ => none

/-- Modelled from the claim wording for the enum value-kind inference: if
every literal shares one primitive kind, that kind is used (refined to
`integer` when all numeric values are whole numbers); mixed kinds default to
`string`; an object-typed constant degrades to `string`. -/
def inferEnumKind (vs : List JVal) : String :=
  match vs with
  | [] => "string"
  | v :: rest =>
    let k := jsKindOf v
    if rest.all (fun w => jsKindOf w == k) then
      if k == "number" &&
          vs.all (fun w => match w with | jnum q => isWholeQ q | _ => false) then
        "integer"
      else if k == "object" then "string"
      else k
    else "string"

/-- Number of heap indices not yet in `seen` — the termination measure of the
canonicalizer. -/
def unseenCount (heap : List IRNode) (seen : List Nat) : Nat :=
  ((Finset.range heap.length).filter (fun i => i ∉ seen)).card

/-- A canonicalization step succeeded and only grew the shared `seen` set. -/
def GrowsP {α : Type} (seen : List Nat) : Option (α × List Nat) → Prop
  | some p => seen ⊆ p.2
  | none => False

/-- The schema-graph heap of the shared-sibling counterexample: fragment `0`
is an object whose properties `a` and `b` both reference fragment `1` (one
shared JavaScript object), and fragment `1` is a plain string schema.  The
graph is acyclic, so under a stack-scoped `seen` both siblings would
canonicalize fully. -/
def c1SharedHeap : List IRNode :=
  [{ properties := some [("a", 1), ("b", 1)] }, { typ := some "string" }]

/-- A genuinely cyclic graph: fragment `0` is `$ref` to `B` (fragment `1`),
whose property `x` points back to fragment `0`. -/
def c1CycleHeap : List IRNode :=
  [{ ref := some "#/components/schemas/B" }, { properties := some [("x", 0)] }]

/-! ### Shared lemmas -/

lemma lookupKV_setKV_self {α : Type} (l : List (String × α)) (k : String) (v : α) :
    lookupKV (setKV l k v) k = some v := by
  induction l with
  | nil => simp [setKV, lookupKV]
  | cons hd tl ih =>
    by_cases h : hd.1 = k
    · simp [setKV, h, lookupKV]
    · simpa [setKV, h, lookupKV] using ih

lemma lookupKV_setKV_ne {α : Type} (l : List (String × α)) (k k' : String) (v : α)
    (h : k ≠ k') : lookupKV (setKV l k v) k' = lookupKV l k' := by
  induction l with
  | nil => simp [setKV, lookupKV, h]
  | cons hd tl ih =>
    by_cases hh : hd.1 = k
    · simp [setKV, hh, lookupKV, h]
    · simp only [setKV, hh, if_false, lookupKV, ite_false]
      by_cases hk' : hd.1 = k' <;> simp [hk', ih]

/-! ### C6 -/

/-- C6: for every string schema carrying one of the recognized formats, the
static generator emits exactly the fixed literal of the table — `uuid`,
`email`, `uri`/`url`, `date`, `date-time`, `phone` — regardless of `default`,
`examples`, `pattern` and the length constraints.  (Schema fields are
positional: format, default, examples, pattern, minLength, maxLength,
minimum, maximum, exclusiveMinimum, exclusiveMaximum.) -/
theorem c6_static_format_literal_table :
    ∀ (d : Option JVal) (ex : Option (List JVal)) (pat : Option String)
      (minL maxL : Option Int) (mn mx emn emx : Option ℚ),
      (generateStaticString ⟨some "uuid", d, ex, pat, minL, maxL, mn, mx, emn, emx⟩ =
        "\"550e8400-e29b-41d4-a716-446655440000\"") ∧
      (generateStaticString ⟨some "email", d, ex, pat, minL, maxL, mn, mx, emn, emx⟩ =
        "\"user@example.com\"") ∧
      (generateStaticString ⟨some "uri", d, ex, pat, minL, maxL, mn, mx, emn, emx⟩ =
        "\"https://example.com\"") ∧
      (generateStaticString ⟨some "url", d, ex, pat, minL, maxL, mn, mx, emn, emx⟩ =
        "\"https://example.com\"") ∧
      (generateStaticString ⟨some "date", d, ex, pat, minL, maxL, mn, mx, emn, emx⟩ =
        "\"2024-01-01\"") ∧
      (generateStaticString ⟨some "date-time", d, ex, pat, minL, maxL, mn, mx, emn, emx⟩ =
        "\"2024-01-01T00:00:00.000Z\"") ∧
      (generateStaticString ⟨some "phone", d, ex, pat, minL, maxL, mn, mx, emn, emx⟩ =
        "\"+15551234567\"") := by
  intro d ex pat minL maxL mn mx emn emx
  exact ⟨rfl, rfl, rfl, rfl, rfl, rfl, rfl⟩

/-! ### C10 -/

/-- C10: for a string schema with no format, default, examples or pattern,
the static generator emits the quoted character `a` repeated exactly
`max(minLength, 5)` times; `maxLength` is never consulted (the output is
independent of it), so whenever `maxLength = some m` with `m < 5` the
generated value's length `max(minLength, 5)` exceeds `m`. -/
theorem c10_static_string_ignores_maxLength
    (minL maxL : Option Int) (m : Int) (hm : maxL = some m) (h5 : m < 5) :
    (generateStaticString ⟨none, none, none, none, minL, maxL, none, none, none, none⟩ =
      jsonQuote (String.mk (List.replicate (max (minL.getD 5) 5).toNat 'a'))) ∧
    (∀ maxLen : Option Int,
      generateStaticString ⟨none, none, none, none, minL, maxL, none, none, none, none⟩ =
        generateStaticString ⟨none, none, none, none, minL, maxLen, none, none, none, none⟩) ∧
    (String.mk (List.replicate (max (minL.getD 5) 5).toNat 'a')).length =
      (max (minL.getD 5) 5).toNat ∧
    m < max (minL.getD 5) 5 := by
  refine ⟨rfl, fun maxLen => rfl, ?_, ?_⟩
  · simp [String.length]
  · exact lt_of_lt_of_le h5 (le_max_right _ _)

/-- Witness for C10 at `minLength` unset and `maxLength = 3`. -/
theorem c10_witness :
    generateStaticString ⟨none, none, none, none, none, some 3, none, none, none, none⟩ =
      jsonQuote (String.mk (List.replicate (max ((none : Option Int).getD 5) 5).toNat 'a')) ∧
    (3 : Int) < max ((none : Option Int).getD 5) 5 :=
  ⟨(c10_static_string_ignores_maxLength none (some 3) 3 rfl (by norm_num)).1,
   (c10_static_string_ignores_maxLength none (some 3) 3 rfl (by norm_num)).2.2.2⟩

/-! ### C2 -/

/-- C2 counterexample: the array-item extraction
(`/z\.array\(([^)]+)\)/` in `generateArrayMock`) is naive first-`)` regex
matching, not balanced-bracket-aware scanning — on an array of objects it
captures a truncated item schema, on which the object extractor then fails
outright. -/
theorem c2_counterexample :
    (parenCapture "z.array(" "z.array(z.object(\x7ba: z.string()\x7d))").map String.mk =
      some "z.object(\x7ba: z.string(" ∧
    "z.object(\x7ba: z.string(" ≠ "z.object(\x7ba: z.string()\x7d)" ∧
    extractObjectProperties "z.object(\x7ba: z.string(".data = none := by
  exact ⟨by decide, by decide, by decide⟩

/-- C2 amended: only the object layer of the Constraint-Text Reader is
balanced-bracket- and quote-aware — `extractObjectProperties` brace-matches
and `splitObjectProperties` respects nested brackets and quoted strings —
while the array, enum and union payloads are recovered by naive
first-closing-delimiter regex matching, which truncates nested constructors
(an array item schema containing `)` is cut at the first `)`) and splits
quoted enum values at every comma. -/
theorem c2_amended :
    ((extractObjectProperties "z.object(\x7ba: z.object(\x7bx: z.string()\x7d)\x7d)".data).map
        String.mk = some "a: z.object(\x7bx: z.string()\x7d)") ∧
    ((splitObjectProperties
        "a: z.object(\x7bx: z.string(), y: z.number()\x7d), b: z.string()".data).map String.mk =
      ["a: z.object(\x7bx: z.string(), y: z.number()\x7d)", "b: z.string()"]) ∧
    ((splitObjectProperties "a: z.literal(\")\"), b: z.string()".data).map String.mk =
      ["a: z.literal(\")\")", "b: z.string()"]) ∧
    ((parenCapture "z.array(" "z.array(z.object(\x7ba: z.string()\x7d))").map String.mk =
      some "z.object(\x7ba: z.string(") ∧
    ((findCapture "z.enum([".data (fun c => c != ']') "])".data
        "z.enum([\"x,y\"])".data).map String.mk = some "\"x,y\"") ∧
    ((splitOnChar ',' "\"x,y\"".data).map String.mk = ["\"x", "y\""]) ∧
    parseEnumValue "\"x".data = jstr "\"x" := by
  exact ⟨by decide, by decide, by decide, by decide, by decide, by decide, rfl⟩

/-! ### C3 -/

/-- C3: schemas that are structurally equal up to property order — equal
after the deterministically key-sorted, `undefined`-stripped serialization
`stableStringify` — share one symbol: registering the second under any base
name returns the symbol of the first registration and leaves the whole
registry unchanged (the schema is stored only once), in either discovery
order by symmetry of the statement. -/
theorem c3_register_shared_symbol (fuel : Nat) (s1 s2 : JVal) (n1 n2 : String)
    (ctx : RegistrationContext)
    (h : stableStringify fuel s1 = stableStringify fuel s2) :
    (registerSchemaDef fuel s2 n2 (registerSchemaDef fuel s1 n1 ctx).2).1 =
      (registerSchemaDef fuel s1 n1 ctx).1 ∧
    (registerSchemaDef fuel s2 n2 (registerSchemaDef fuel s1 n1 ctx).2).2 =
      (registerSchemaDef fuel s1 n1 ctx).2 := by
  unfold registerSchemaDef
  rw [← h]
  cases hlk : lookupKV ctx.schemaDefHashes (stableStringify fuel s1) with
  | some existing => simp [hlk]
  | none => simp [hlk, lookupKV_setKV_self]

/-- Witness for C3: two schemas with permuted properties registered under
different base names share the first symbol, and the second registration is
a no-op on the registry. -/
theorem c3_witness :
    stableStringify 8 (jobj [("a", jstr "1"), ("b", jnull)]) =
      stableStringify 8 (jobj [("b", jnull), ("a", jstr "1")]) ∧
    (registerSchemaDef 8 (jobj [("b", jnull), ("a", jstr "1")]) "Pet"
        (registerSchemaDef 8 (jobj [("a", jstr "1"), ("b", jnull)]) "User" ⟨[], [], [], 0⟩).2).1 =
      (registerSchemaDef 8 (jobj [("a", jstr "1"), ("b", jnull)]) "User" ⟨[], [], [], 0⟩).1 :=
  ⟨by decide,
   (c3_register_shared_symbol 8 (jobj [("a", jstr "1"), ("b", jnull)])
      (jobj [("b", jnull), ("a", jstr "1")]) "User" "Pet" ⟨[], [], [], 0⟩ (by decide)).1⟩

/-! ### C4 -/

lemma processProps_single_opt (recur : String → List (String × JVal) → Nat → JVal × Nat)
    (opts : ZodResolvedOptions) (ctx : GenCtx) (key ps : String) (idx : Nat)
    (hopt : sContains ps ".optional()" = true)
    (hai : opts.alwaysIncludeOptionals = false)
    (hon : opts.omitNulls = false) :
    (ctx.rf idx > zodEffectiveProbability opts →
      processProps recur opts ctx [] [(key, ps)] [] idx = ([], idx + 1)) ∧
    (¬ ctx.rf idx > zodEffectiveProbability opts →
      processProps recur opts ctx [] [(key, ps)] [] idx =
        ([(key, (recur ps [] (idx + 1)).1)], (recur ps [] (idx + 1)).2)) := by
  constructor
  · intro h
    simp only [processProps, lookupKV, hopt, hai, Bool.not_false, Bool.and_self, if_true]
    rw [if_pos h]
  · intro h
    simp only [processProps, lookupKV, hopt, hai, Bool.not_false, Bool.and_self, if_true]
    rw [if_neg h]
    cases hval : recur ps [] (idx + 1) with
    | mk value idx2 =>
      simp [includeProp, hval, hon, processProps, setKV]

/-- C4 counterexample: in the public `generateMock` entry point
(`src/index.ts`) an unset `optionalsProbability` resolves to `1`, not `0.8`,
and an explicit `false` is forwarded unchanged — so it is false that both
resolve to the fallback `0.8` in every synthesis path. -/
theorem c4_counterexample :
    (resolveJSFOptions ⟨none, none, none, none, none, none⟩).optionalsProbability =
      OptProb.num 1 ∧
    (resolveJSFOptions ⟨none, none, none, some OptProb.fls, none, none⟩).optionalsProbability =
      OptProb.fls ∧
    ¬ ((resolveJSFOptions ⟨none, none, none, none, none, none⟩).optionalsProbability =
         OptProb.num (4 / 5) ∧
       (resolveJSFOptions ⟨none, none, none, some OptProb.fls, none, none⟩).optionalsProbability =
         OptProb.num (4 / 5)) := by
  refine ⟨rfl, rfl, ?_⟩
  rintro ⟨h1, h2⟩
  simp [resolveJSFOptions] at h2

/-- C4 amended: in the textual-notation path both an unset
`optionalsProbability` and an explicit `false` resolve to the effective
probability `0.8`, and an optional property is included exactly when
`Math.random()` does not exceed that probability; the public `generateMock`
entry point instead resolves an unset value to `1` and forwards an explicit
`false` unchanged to the faker options. -/
theorem c4_amended :
    (∀ o : ZodMockOptions,
      zodEffectiveProbability (resolveZodOptions o) =
        match o.optionalsProbability with
        | some (OptProb.num q) => q
        | _ => 4 / 5) ∧
    (resolveJSFOptions ⟨none, none, none, none, none, none⟩).optionalsProbability =
      OptProb.num 1 ∧
    (resolveJSFOptions ⟨none, none, none, some OptProb.fls, none, none⟩).optionalsProbability =
      OptProb.fls ∧
    (∀ rf : Nat → ℚ,
      (zodEffectiveProbability (resolveZodOptions ⟨none, none, none, none, none⟩) < rf 0 →
        jGetField (generateFromSchemaStringF 3 (resolveZodOptions ⟨none, none, none, none, none⟩)
            ⟨rf, fun _ => ""⟩ "z.object(\x7ba: z.string().optional()\x7d)" [] 0).1 "a" = none) ∧
      (rf 0 ≤ zodEffectiveProbability (resolveZodOptions ⟨none, none, none, none, none⟩) →
        (jGetField (generateFromSchemaStringF 3 (resolveZodOptions ⟨none, none, none, none, none⟩)
            ⟨rf, fun _ => ""⟩ "z.object(\x7ba: z.string().optional()\x7d)" [] 0).1 "a").isSome =
          true)) := by
  refine ⟨?_, rfl, rfl, ?_⟩
  · intro o
    cases ho : o.optionalsProbability with
    | none => simp [resolveZodOptions, zodEffectiveProbability, ho]
    | some p =>
      cases p with
      | num q => simp [resolveZodOptions, zodEffectiveProbability, ho]
      | fls => simp [resolveZodOptions, zodEffectiveProbability, ho]
  · intro rf
    have hkey : generateFromSchemaStringF 3 (resolveZodOptions ⟨none, none, none, none, none⟩)
        ⟨rf, fun _ => ""⟩ "z.object(\x7ba: z.string().optional()\x7d)" [] 0 =
        (jobj (processProps
            (generateFromSchemaStringF 2 (resolveZodOptions ⟨none, none, none, none, none⟩)
              ⟨rf, fun _ => ""⟩)
            (resolveZodOptions ⟨none, none, none, none, none⟩) ⟨rf, fun _ => ""⟩ []
            [("a", "z.string().optional()")] [] 0).1,
         (processProps
            (generateFromSchemaStringF 2 (resolveZodOptions ⟨none, none, none, none, none⟩)
              ⟨rf, fun _ => ""⟩)
            (resolveZodOptions ⟨none, none, none, none, none⟩) ⟨rf, fun _ => ""⟩ []
            [("a", "z.string().optional()")] [] 0).2) := rfl
    have hpp := processProps_single_opt
      (generateFromSchemaStringF 2 (resolveZodOptions ⟨none, none, none, none, none⟩)
        ⟨rf, fun _ => ""⟩)
      (resolveZodOptions ⟨none, none, none, none, none⟩) ⟨rf, fun _ => ""⟩
      "a" "z.string().optional()" 0 (by decide) rfl rfl
    constructor
    · intro hgt
      rw [hkey, hpp.1 hgt]
      rfl
    · intro hle
      rw [hkey, hpp.2 (not_lt.mpr hle)]
      rfl

/-- Witness for C4: with a constant random stream above `0.8` the optional
property is skipped; with one below it is included. -/
theorem c4_amended_witness :
    jGetField (generateFromSchemaStringF 3 (resolveZodOptions ⟨none, none, none, none, none⟩)
        ⟨fun _ => 1, fun _ => ""⟩ "z.object(\x7ba: z.string().optional()\x7d)" [] 0).1 "a" =
      none ∧
    (jGetField (generateFromSchemaStringF 3 (resolveZodOptions ⟨none, none, none, none, none⟩)
        ⟨fun _ => 0, fun _ => ""⟩ "z.object(\x7ba: z.string().optional()\x7d)" [] 0).1
        "a").isSome = true :=
  ⟨(c4_amended.2.2.2 (fun _ => 1)).1
      (by norm_num [zodEffectiveProbability, resolveZodOptions]),
   (c4_amended.2.2.2 (fun _ => 0)).2
      (by norm_num [zodEffectiveProbability, resolveZodOptions])⟩

/-! ### C5 -/

/-- C5 counterexample: the deterministic (static) generator never reads
`exclusiveMinimum`: for a number schema with `exclusiveMinimum = 10` and
`maximum = 20` it produces exactly `10`, which is not `> 10` — the
exclusive-bound raising claimed for the static path does not happen there. -/
theorem c5_counterexample :
    generateStaticNumberVal
        ⟨none, none, none, none, none, none, none, some 20, some 10, none⟩ = 10 ∧
    ¬ (10 : ℚ) < generateStaticNumberVal
        ⟨none, none, none, none, none, none, none, some 20, some 10, none⟩ ∧
    generateStaticNumber
        ⟨none, none, none, none, none, none, none, some 20, some 10, none⟩ = "10" := by
  have h : generateStaticNumberVal
      ⟨none, none, none, none, none, none, none, some 20, some 10, none⟩ = 10 := by
    simp only [generateStaticNumberVal, Option.getD]
    norm_num
  refine ⟨h, by rw [h]; exact lt_irrefl 10, ?_⟩
  rw [generateStaticNumber, h]
  decide

/-- C5 amended: with `minimum = 10, maximum = 20` the static value is `15`
and every textual-notation value (integer or not) lies in `[10, 20]`; the
`exclusiveMinimum` raising to `bound + 1` (integers) resp. `bound + 0.001`
(numbers) happens only in the textual-notation path — where the raised
integer bound indeed forces `v > 10` — while the static generator ignores
exclusive bounds entirely and can return the bound itself. -/
theorem c5_amended (r : ℚ) (h0 : 0 ≤ r) (h1 : r < 1) :
    (generateStaticNumberVal
        ⟨none, none, none, none, none, none, some 10, some 20, none, none⟩ = 15) ∧
    (generateNumberMock "z.number().int().min(10).max(20)" r =
        some ((Int.floor (r * (20 - 10) + 10) : ℚ)) ∧
      (10 : ℚ) ≤ ((Int.floor (r * (20 - 10) + 10) : ℤ) : ℚ) ∧
      ((Int.floor (r * (20 - 10) + 10) : ℤ) : ℚ) ≤ 20) ∧
    (generateNumberMock "z.number().min(10).max(20)" r =
        some (((Int.floor ((r * (20 - 10) + 10) * 100 + 1 / 2) : ℤ) : ℚ) / 100) ∧
      (10 : ℚ) ≤ ((Int.floor ((r * (20 - 10) + 10) * 100 + 1 / 2) : ℤ) : ℚ) / 100 ∧
      ((Int.floor ((r * (20 - 10) + 10) * 100 + 1 / 2) : ℤ) : ℚ) / 100 ≤ 20) ∧
    (generateNumberMock "z.number().int().gt(10)" r =
        some ((Int.floor (r * (100 - (10 + 1)) + (10 + 1)) : ℤ) : ℚ) ∧
      (10 : ℚ) < ((Int.floor (r * (100 - (10 + 1)) + (10 + 1)) : ℤ) : ℚ)) ∧
    (generateNumberMock "z.number().gt(10)" r =
        some (((Int.floor ((r * (100 - (10 + 1 / 1000)) + (10 + 1 / 1000)) * 100 + 1 / 2) : ℤ) :
          ℚ) / 100)) ∧
    (generateStaticNumberVal
        ⟨none, none, none, none, none, none, none, some 20, some 10, none⟩ = 10) := by
  have hd10 : jsParseIntDigits ['1', '0'] = 10 := by decide
  have hp10 : jsParseFloat ['1', '0'] = some 10 := by
    have h' : jsParseFloat ['1', '0'] =
        some (1 * ((jsParseIntDigits ['1', '0'] : ℕ) : ℚ)) := rfl
    rw [h', hd10]; norm_num
  have hd20 : jsParseIntDigits ['2', '0'] = 20 := by decide
  have hp20 : jsParseFloat ['2', '0'] = some 20 := by
    have h' : jsParseFloat ['2', '0'] =
        some (1 * ((jsParseIntDigits ['2', '0'] : ℕ) : ℚ)) := rfl
    rw [h', hd20]; norm_num
  refine ⟨?_, ⟨?_, ?_, ?_⟩, ⟨?_, ?_, ?_⟩, ⟨?_, ?_⟩, ?_, ?_⟩
  · simp only [generateStaticNumberVal, Option.getD]
    norm_num
  · have c1 : parenCapture ".min(" "z.number().int().min(10).max(20)" = some ['1', '0'] := by
      decide
    have c2 : parenCapture ".max(" "z.number().int().min(10).max(20)" = some ['2', '0'] := by
      decide
    have c3 : parenCapture ".gt(" "z.number().int().min(10).max(20)" = none := by decide
    have c4 : parenCapture ".lt(" "z.number().int().min(10).max(20)" = none := by decide
    have ci : sContains "z.number().int().min(10).max(20)" ".int()" = true := by decide
    simp only [generateNumberMock, c1, c2, c3, c4, ci, hp10, hp20, if_true, Option.map]
  · exact_mod_cast Int.le_floor.mpr (by push_cast; nlinarith)
  · have hf : ((Int.floor (r * (20 - 10) + 10) : ℤ) : ℚ) ≤ r * (20 - 10) + 10 :=
      Int.floor_le _
    nlinarith
  · have c1 : parenCapture ".min(" "z.number().min(10).max(20)" = some ['1', '0'] := by decide
    have c2 : parenCapture ".max(" "z.number().min(10).max(20)" = some ['2', '0'] := by decide
    have c3 : parenCapture ".gt(" "z.number().min(10).max(20)" = none := by decide
    have c4 : parenCapture ".lt(" "z.number().min(10).max(20)" = none := by decide
    have ci : sContains "z.number().min(10).max(20)" ".int()" = false := by decide
    simp only [generateNumberMock, c1, c2, c3, c4, ci, hp10, hp20, if_false, Option.map,
      Bool.false_eq_true]
  · rw [le_div_iff₀ (by norm_num : (0 : ℚ) < 100)]
    exact_mod_cast Int.le_floor.mpr (by push_cast; nlinarith)
  · rw [div_le_iff₀ (by norm_num : (0 : ℚ) < 100)]
    have hf : (Int.floor ((r * (20 - 10) + 10) * 100 + 1 / 2) : ℤ) < 2001 :=
      Int.floor_lt.mpr (by push_cast; nlinarith)
    have hf' : (Int.floor ((r * (20 - 10) + 10) * 100 + 1 / 2) : ℤ) ≤ 2000 := by omega
    exact_mod_cast hf'
  · have c1 : parenCapture ".min(" "z.number().int().gt(10)" = none := by decide
    have c2 : parenCapture ".max(" "z.number().int().gt(10)" = none := by decide
    have c3 : parenCapture ".gt(" "z.number().int().gt(10)" = some ['1', '0'] := by decide
    have c4 : parenCapture ".lt(" "z.number().int().gt(10)" = none := by decide
    have ci : sContains "z.number().int().gt(10)" ".int()" = true := by decide
    simp only [generateNumberMock, c1, c2, c3, c4, ci, hp10, if_true, Option.map]
  · have hf : (11 : ℤ) ≤ Int.floor (r * (100 - (10 + 1)) + (10 + 1)) :=
      Int.le_floor.mpr (by push_cast; nlinarith)
    have : (11 : ℚ) ≤ ((Int.floor (r * (100 - (10 + 1)) + (10 + 1)) : ℤ) : ℚ) := by
      exact_mod_cast hf
    linarith
  · have c1 : parenCapture ".min(" "z.number().gt(10)" = none := by decide
    have c2 : parenCapture ".max(" "z.number().gt(10)" = none := by decide
    have c3 : parenCapture ".gt(" "z.number().gt(10)" = some ['1', '0'] := by decide
    have c4 : parenCapture ".lt(" "z.number().gt(10)" = none := by decide
    have ci : sContains "z.number().gt(10)" ".int()" = false := by decide
    simp only [generateNumberMock, c1, c2, c3, c4, ci, hp10, if_false, Option.map,
      Bool.false_eq_true]
  · simp only [generateStaticNumberVal, Option.getD]
    norm_num

/-- Witness for C5 at the random draw `0`. -/
theorem c5_amended_witness :
    (0 : ℚ) ≤ 0 ∧ (0 : ℚ) < 1 ∧
    generateStaticNumberVal
      ⟨none, none, none, none, none, none, some 10, some 20, none, none⟩ = 15 ∧
    (10 : ℚ) < ((Int.floor ((0 : ℚ) * (100 - (10 + 1)) + (10 + 1)) : ℤ) : ℚ) :=
  ⟨le_refl 0, by norm_num, (c5_amended 0 (le_refl 0) (by norm_num)).1,
   (c5_amended 0 (le_refl 0) (by norm_num)).2.2.2.1.2⟩

/-! ### C7 -/

lemma mem_jsSetAux (a : String) :
    ∀ (l acc : List String), a ∈ jsSetAux acc l ↔ a ∈ acc ∨ a ∈ l := by
  intro l
  induction l with
  | nil => intro acc; simp [jsSetAux]
  | cons k rest ih =>
    intro acc
    simp only [jsSetAux]
    by_cases hk : k ∈ acc
    · rw [if_pos hk, ih]
      simp only [List.mem_cons]
      constructor
      · rintro (h | h)
        · exact Or.inl h
        · exact Or.inr (Or.inr h)
      · rintro (h | rfl | h)
        · exact Or.inl h
        · exact Or.inl hk
        · exact Or.inr h
    · rw [if_neg hk, ih]
      simp only [List.mem_append, List.mem_singleton, List.mem_cons]
      tauto

lemma jsSetAux_of_subset :
    ∀ (l acc : List String), (∀ a ∈ l, a ∈ acc) → jsSetAux acc l = acc := by
  intro l
  induction l with
  | nil => intro acc _; rfl
  | cons k rest ih =>
    intro acc h
    simp only [jsSetAux]
    rw [if_pos (h k (by simp))]
    exact ih acc (fun a ha => h a (by simp [ha]))

lemma jsSetList_const (k : String) (rest : List String) (h : ∀ a ∈ rest, a = k) :
    jsSetList (k :: rest) = [k] := by
  have h1 : jsSetList (k :: rest) = jsSetAux [k] rest := by
    simp [jsSetList, jsSetAux]
  rw [h1]
  exact jsSetAux_of_subset rest [k] (fun a ha => by rw [h a ha]; simp)

lemma jsKindOf_ne_array (v : JVal) : (jsKindOf v == "array") = false := by
  cases v <;> rfl

lemma inferEnumKind_ne_array (vs : List JVal) : (inferEnumKind vs == "array") = false := by
  cases vs with
  | nil => rfl
  | cons v rest =>
    simp only [inferEnumKind]
    split_ifs <;> first | rfl | exact jsKindOf_ne_array v

lemma inferBranchesAux (b : Bool) (k : String) :
    (if (if b then "integer" else k) == "object" then "string"
     else if b then "integer" else k) =
    (if b then "integer" else if k == "object" then "string" else k) := by
  cases b
  · rfl
  · rfl

/-- The set-based kind inference of `normalizeSchema` computes exactly the
claim's inference rule `inferEnumKind`. -/
lemma normalizeEnumInferredType_eq_inferEnumKind (vs : List JVal) :
    normalizeEnumInferredType vs = inferEnumKind vs := by
  cases vs with
  | nil => rfl
  | cons v rest =>
    by_cases hall : ∀ w ∈ rest, jsKindOf w = jsKindOf v
    · have hset : jsSetList (jsKindOf v :: rest.map jsKindOf) = [jsKindOf v] :=
        jsSetList_const _ _ (by
          intro a ha
          obtain ⟨w, hw, rfl⟩ := List.mem_map.1 ha
          exact hall w hw)
      have hrest : rest.all (fun w => jsKindOf w == jsKindOf v) = true := by
        rw [List.all_eq_true]
        intro w hw
        exact beq_iff_eq.mpr (hall w hw)
      simp only [normalizeEnumInferredType, inferEnumKind, List.map_cons, hset, hrest]
      exact inferBranchesAux _ _
    · push_neg at hall
      obtain ⟨w, hw, hne⟩ := hall
      have hlen : (jsSetList (jsKindOf v :: rest.map jsKindOf)).length ≠ 1 := by
        intro hl
        obtain ⟨x, hx⟩ := List.length_eq_one.mp hl
        have hv : jsKindOf v ∈ jsSetList (jsKindOf v :: rest.map jsKindOf) := by
          rw [jsSetList, mem_jsSetAux]
          exact Or.inr (by simp)
        have hwm : jsKindOf w ∈ jsSetList (jsKindOf v :: rest.map jsKindOf) := by
          rw [jsSetList, mem_jsSetAux]
          refine Or.inr ?_
          simp only [List.mem_cons, List.mem_map]
          exact Or.inr ⟨w, hw, rfl⟩
        rw [hx] at hv hwm
        simp only [List.mem_singleton] at hv hwm
        exact hne (hwm.trans hv.symm)
      have hlenb : ((jsSetList (jsKindOf v :: rest.map jsKindOf)).length == 1) = false :=
        beq_eq_false_iff_ne.mpr hlen
      have hrestb : (rest.all (fun w => jsKindOf w == jsKindOf v)) = false := by
        rw [List.all_eq_false]
        refine ⟨w, hw, ?_⟩
        simp [hne]
      simp only [normalizeEnumInferredType, inferEnumKind, List.map_cons, hlenb, hrestb]
      rfl

/-- C7: `normalizeSchema` on an internal enum node (`type: 'enum'` with
const-bearing items) infers the value type exactly as the claim states — one
shared primitive kind (refined to `integer` when all numeric values are
whole, `object` degrading to `string`), `string` for mixed kinds — setting
`type` and `enum` and dropping `items`; an empty value list degrades the node
to a bare `type: "string"` with no `enum` constraint. -/
theorem c7_normalize_enum_value_kinds (fuel : Nat) (vs : List JVal) :
    normalizeSchemaF (fuel + 1)
        (jobj [("type", jstr "enum"),
               ("items", jarr (vs.map (fun v => jobj [("const", v)])))]) =
      (if vs.isEmpty then jobj [("type", jstr "string")]
       else jobj [("type", jstr (inferEnumKind vs)), ("enum", jarr vs)]) := by
  have hcomp : ((fun it => match it with
      | jobj ikvs => lookupKV ikvs "const"
      | _ => none) ∘ (fun v => jobj [("const", v)])) = some := by
    funext v
    simp [Function.comp, lookupKV]
  cases vs with
  | nil => rfl
  | cons v rest =>
    have hK := inferEnumKind_ne_array (v :: rest)
    simp only [normalizeSchemaF, List.filterMap_map, hcomp, List.filterMap_some,
      normalizeEnumInferredType_eq_inferEnumKind]
    simp [isTypeStr, lookupKV, setKV, removeKV, hK, hcomp, List.filterMap_some]

/-! ### C8 -/

lemma includeProp_lookup_ne (recur : String → List (String × JVal) → Nat → JVal × Nat)
    (opts : ZodResolvedOptions) (mock : List (String × JVal)) (key ps : String) (idx : Nat)
    (k : String) (hk : key ≠ k) :
    lookupKV (includeProp recur opts mock key ps idx).1 k = lookupKV mock k := by
  unfold includeProp
  cases hval : recur ps [] idx with
  | mk value idx2 =>
    simp only
    split_ifs with h
    · rfl
    · exact lookupKV_setKV_ne _ _ _ _ hk

lemma processProps_override (recur : String → List (String × JVal) → Nat → JVal × Nat)
    (opts : ZodResolvedOptions) (ctx : GenCtx) (overrides : List (String × JVal)) (v : JVal)
    (hv : lookupKV overrides "name" = some v) (hvu : v ≠ jundef) :
    ∀ (props : List (String × String)) (mock : List (String × JVal)) (idx : Nat),
      ("name" ∈ props.map Prod.fst ∨ lookupKV mock "name" = some v) →
      lookupKV (processProps recur opts ctx overrides props mock idx).1 "name" = some v := by
  intro props
  induction props with
  | nil =>
    intro mock idx h
    rcases h with h | h
    · simp at h
    · simpa [processProps] using h
  | cons p rest ih =>
    intro mock idx h
    obtain ⟨key, ps⟩ := p
    by_cases hkey : key = "name"
    · subst hkey
      have hmatch : (match lookupKV overrides "name" with
          | some jundef => none
          | some w => some w
          | none => none) = some v := by
        rw [hv]
        cases v with
        | jundef => exact absurd rfl hvu
        | jnull => rfl
        | jnan => rfl
        | jbool b => rfl
        | jnum q => rfl
        | jstr s => rfl
        | jarr xs => rfl
        | jobj kvs => rfl
      simp only [processProps, hmatch]
      exact ih (setKV mock "name" v) idx (Or.inr (lookupKV_setKV_self _ _ _))
    · have hleft : "name" ∈ rest.map Prod.fst ∨ lookupKV mock "name" = some v := by
        rcases h with h | h
        · have h2 : "name" = key ∨ "name" ∈ rest.map Prod.fst := by
            simpa only [List.map_cons, List.mem_cons] using h
          rcases h2 with h' | h'
          · exact absurd h'.symm hkey
          · exact Or.inl h'
        · exact Or.inr h
      simp only [processProps]
      cases hm : (match lookupKV overrides key with
          | some jundef => none
          | some w => some w
          | none => none) with
      | some w =>
        have hpres : lookupKV (setKV mock key w) "name" = lookupKV mock "name" :=
          lookupKV_setKV_ne _ _ _ _ hkey
        refine ih (setKV mock key w) idx ?_
        rcases hleft with h' | h'
        · exact Or.inl h'
        · exact Or.inr (hpres.trans h')
      | none =>
        by_cases hio : (sContains ps ".optional()" && !opts.alwaysIncludeOptionals) = true
        · rw [if_pos hio]
          by_cases hpr : ctx.rf idx > zodEffectiveProbability opts
          · rw [if_pos hpr]
            exact ih mock (idx + 1) hleft
          · rw [if_neg hpr]
            cases hinc : includeProp recur opts mock key ps (idx + 1) with
            | mk mock2 idx2 =>
              have hpres : lookupKV mock2 "name" = lookupKV mock "name" := by
                have hip := includeProp_lookup_ne recur opts mock key ps (idx + 1) "name" hkey
                rw [hinc] at hip
                exact hip
              simp only [hinc]
              refine ih mock2 idx2 ?_
              rcases hleft with h' | h'
              · exact Or.inl h'
              · exact Or.inr (hpres.trans h')
        · rw [if_neg hio]
          cases hinc : includeProp recur opts mock key ps idx with
          | mk mock2 idx2 =>
            have hpres : lookupKV mock2 "name" = lookupKV mock "name" := by
              have hip := includeProp_lookup_ne recur opts mock key ps idx "name" hkey
              rw [hinc] at hip
              exact hip
            simp only [hinc]
            refine ih mock2 idx2 ?_
            rcases hleft with h' | h'
            · exact Or.inl h'
            · exact Or.inr (hpres.trans h')

/-- C8: overriding a root-level property always wins in the textual-notation
object synthesis: whenever `name` is among the parsed properties of the
object schema and the override map carries a (defined) value for `name`, the
synthesized object maps `name` to exactly that value — stored verbatim at
the top level (no merging with the synthesized value), for every policy,
random stream and schema constraint on `name`. -/
theorem c8_override_wins (fuel : Nat) (opts : ZodResolvedOptions) (ctx : GenCtx)
    (s : String) (overrides : List (String × JVal)) (idx : Nat) (v : JVal)
    (hobj : sContains s "z.object(" = true)
    (hv : lookupKV overrides "name" = some v) (hvu : v ≠ jundef)
    (hprop : "name" ∈ (parseObjectProperties
      ((extractObjectProperties s.data).getD [])).map Prod.fst) :
    jGetField (generateFromSchemaStringF (fuel + 1) opts ctx s overrides idx).1 "name" =
      some v := by
  simp only [generateFromSchemaStringF, hobj, if_true, generateObjectMockCore]
  cases hext : extractObjectProperties s.data with
  | none =>
    rw [hext] at hprop
    have h0 : parseObjectProperties ((none : Option (List Char)).getD []) = [] := rfl
    rw [h0] at hprop
    simp at hprop
  | some ps =>
    have hp : "name" ∈ (parseObjectProperties ps).map Prod.fst := by
      rw [hext] at hprop
      simpa using hprop
    cases hpp : processProps (generateFromSchemaStringF fuel opts ctx) opts ctx overrides
        (parseObjectProperties ps) [] idx with
    | mk mock idxe =>
      have hres := processProps_override (generateFromSchemaStringF fuel opts ctx) opts ctx
        overrides v hv hvu (parseObjectProperties ps) [] idx (Or.inl hp)
      rw [hpp] at hres
      simp only [hpp, jGetField]
      exact hres

/-- Witness for C8: overriding `name` with the string `X` on a schema that
constrains `name` to be a generated string. -/
theorem c8_witness :
    jGetField (generateFromSchemaStringF 5 ⟨false, false, false, OptProb.num 1, false⟩
        ⟨fun _ => 0, fun _ => ""⟩ "z.object(\x7bname: z.string()\x7d)"
        [("name", jstr "X")] 0).1 "name" = some (jstr "X") :=
  c8_override_wins 4 ⟨false, false, false, OptProb.num 1, false⟩ ⟨fun _ => 0, fun _ => ""⟩
    "z.object(\x7bname: z.string()\x7d)" [("name", jstr "X")] 0 (jstr "X")
    (by decide) rfl (fun h => JVal.noConfusion h) (by decide)

/-! ### C9 -/

/-- C9: the textual-notation reader dispatches on substring containment with
`z.object(` first, not on the outermost constructor: (1) whenever the whole
schema text contains `z.object(` anywhere, synthesis is exactly the object
branch; hence (2) an array-of-objects schema text and (3) a union text with
an object branch — whose raw text begins with `z.array(` resp. `z.union(`
(conjuncts 4 and 5) — both synthesize an object value (`jobj`), not an array
or union-branch value, for every policy, random stream, override map and
fuel. -/
theorem c9_dispatch_object_first :
    (∀ (fuel : Nat) (opts : ZodResolvedOptions) (ctx : GenCtx) (s : String)
        (overrides : List (String × JVal)) (idx : Nat),
      sContains s "z.object(" = true →
      generateFromSchemaStringF (fuel + 1) opts ctx s overrides idx =
        generateObjectMockCore (generateFromSchemaStringF fuel opts ctx) opts ctx s
          overrides idx) ∧
    (∀ (fuel : Nat) (opts : ZodResolvedOptions) (ctx : GenCtx)
        (overrides : List (String × JVal)) (idx : Nat),
      ∃ kvs, (generateFromSchemaStringF (fuel + 1) opts ctx
        "z.array(z.object(\x7ba: z.string()\x7d))" overrides idx).1 = jobj kvs) ∧
    (∀ (fuel : Nat) (opts : ZodResolvedOptions) (ctx : GenCtx)
        (overrides : List (String × JVal)) (idx : Nat),
      ∃ kvs, (generateFromSchemaStringF (fuel + 1) opts ctx
        "z.union([z.object(\x7ba: z.string()\x7d), z.number()])" overrides idx).1 =
          jobj kvs) ∧
    ("z.array(z.object(\x7ba: z.string()\x7d))".data.take 8 = "z.array(".data) ∧
    ("z.union([z.object(\x7ba: z.string()\x7d), z.number()])".data.take 8 =
      "z.union(".data) := by
  refine ⟨?_, ?_, ?_, by decide, by decide⟩
  · intro fuel opts ctx s overrides idx h
    simp only [generateFromSchemaStringF]
    rw [if_pos h]
  · intro fuel opts ctx overrides idx
    have h : sContains "z.array(z.object(\x7ba: z.string()\x7d))" "z.object(" = true := by
      decide
    simp only [generateFromSchemaStringF]
    rw [if_pos h]
    simp only [generateObjectMockCore]
    cases hext : extractObjectProperties
        ("z.array(z.object(\x7ba: z.string()\x7d))" : String).data with
    | none => exact ⟨[], rfl⟩
    | some ps =>
      cases hpp : processProps (generateFromSchemaStringF fuel opts ctx) opts ctx overrides
          (parseObjectProperties ps) [] idx with
      | mk mock idx2 => exact ⟨mock, by simp only [hpp]⟩
  · intro fuel opts ctx overrides idx
    have h : sContains "z.union([z.object(\x7ba: z.string()\x7d), z.number()])"
        "z.object(" = true := by decide
    simp only [generateFromSchemaStringF]
    rw [if_pos h]
    simp only [generateObjectMockCore]
    cases hext : extractObjectProperties
        ("z.union([z.object(\x7ba: z.string()\x7d), z.number()])" : String).data with
    | none => exact ⟨[], rfl⟩
    | some ps =>
      cases hpp : processProps (generateFromSchemaStringF fuel opts ctx) opts ctx overrides
          (parseObjectProperties ps) [] idx with
      | mk mock idx2 => exact ⟨mock, by simp only [hpp]⟩

/-- Witness for C9: the object-dispatch equation at a concrete schema, and an
array-of-objects text yielding a `jobj`. -/
theorem c9_witness :
    (generateFromSchemaStringF 1 ⟨false, false, false, OptProb.num 1, false⟩
        ⟨fun _ => 0, fun _ => ""⟩ "z.object(\x7b\x7d)" [] 0 =
      generateObjectMockCore
        (generateFromSchemaStringF 0 ⟨false, false, false, OptProb.num 1, false⟩
          ⟨fun _ => 0, fun _ => ""⟩)
        ⟨false, false, false, OptProb.num 1, false⟩ ⟨fun _ => 0, fun _ => ""⟩
        "z.object(\x7b\x7d)" [] 0) ∧
    ∃ kvs, (generateFromSchemaStringF 2 ⟨false, false, false, OptProb.num 1, false⟩
        ⟨fun _ => 0, fun _ => ""⟩ "z.array(z.object(\x7ba: z.string()\x7d))" [] 0).1 =
      jobj kvs :=
  ⟨c9_dispatch_object_first.1 0 _ _ "z.object(\x7b\x7d)" [] 0 (by decide),
   c9_dispatch_object_first.2.1 1 ⟨false, false, false, OptProb.num 1, false⟩
     ⟨fun _ => 0, fun _ => ""⟩ [] 0⟩

/-! ### C1 -/

lemma growsP_elim {α : Type} {seen : List Nat} {x : Option (α × List Nat)}
    (h : GrowsP seen x) : ∃ q, x = some q ∧ seen ⊆ q.2 := by
  cases x with
  | none => exact h.elim
  | some q => exact ⟨q, rfl, h⟩

lemma growsP_mapFst {α β : Type} {seen : List Nat} {x : Option (α × List Nat)}
    (g : α → β) (h : GrowsP seen x) : GrowsP seen (x.map (fun p => (g p.1, p.2))) := by
  cases x with
  | none => exact h
  | some p => exact h

lemma growsP_weaken {α : Type} {s1 s2 : List Nat} {x : Option (α × List Nat)}
    (h : s1 ⊆ s2) (hx : GrowsP s2 x) : GrowsP s1 x := by
  cases x with
  | none => exact hx
  | some p => intro a ha; exact hx (h ha)

lemma seqChildren_grows (f : List Nat → Nat → Option (JVal × List Nat)) (seen0 : List Nat)
    (hf : ∀ s i, seen0 ⊆ s → GrowsP s (f s i)) :
    ∀ (ids : List Nat) (seen : List Nat), seen0 ⊆ seen →
      GrowsP seen (seqChildren f seen ids) := by
  intro ids
  induction ids with
  | nil => intro seen hs; exact List.Subset.refl _
  | cons id rest ih =>
    intro seen hs
    obtain ⟨⟨v, s1⟩, hx, h1⟩ := growsP_elim (hf seen id hs)
    obtain ⟨⟨vs, s2⟩, hy, h2⟩ := growsP_elim (ih s1 (List.Subset.trans hs h1))
    simp only [seqChildren, hx, hy]
    intro a ha
    exact h2 (h1 ha)

lemma seqProps_grows (f : List Nat → Nat → Option (JVal × List Nat)) (seen0 : List Nat)
    (hf : ∀ s i, seen0 ⊆ s → GrowsP s (f s i)) :
    ∀ (kvs : List (String × Nat)) (seen : List Nat), seen0 ⊆ seen →
      GrowsP seen (seqProps f seen kvs) := by
  intro kvs
  induction kvs with
  | nil => intro seen hs; exact List.Subset.refl _
  | cons kv rest ih =>
    intro seen hs
    obtain ⟨k, cid⟩ := kv
    obtain ⟨⟨v, s1⟩, hx, h1⟩ := growsP_elim (hf seen cid hs)
    obtain ⟨⟨vs, s2⟩, hy, h2⟩ := growsP_elim (ih s1 (List.Subset.trans hs h1))
    simp only [seqProps, hx, hy]
    intro a ha
    exact h2 (h1 ha)

lemma irPropsStage_grows (f : List Nat → Nat → Option (JVal × List Nat)) (seen0 : List Nat)
    (hf : ∀ s i, seen0 ⊆ s → GrowsP s (f s i)) (ir : IRNode) (seen : List Nat)
    (h : seen0 ⊆ seen) : GrowsP seen (irPropsStage f ir seen) := by
  unfold irPropsStage
  cases ir.properties with
  | none => exact List.Subset.refl _
  | some kvs => exact growsP_mapFst _ (seqProps_grows f seen0 hf kvs seen h)

lemma irApStage_grows (f : List Nat → Nat → Option (JVal × List Nat)) (seen0 : List Nat)
    (hf : ∀ s i, seen0 ⊆ s → GrowsP s (f s i)) (ir : IRNode) (seen : List Nat)
    (h : seen0 ⊆ seen) : GrowsP seen (irApStage f ir seen) := by
  unfold irApStage
  cases ir.additionalProperties with
  | none => exact List.Subset.refl _
  | some x =>
    cases x with
    | inl b => exact List.Subset.refl _
    | inr aid => exact growsP_mapFst _ (hf seen aid h)

lemma irItemsStage_grows (f : List Nat → Nat → Option (JVal × List Nat)) (seen0 : List Nat)
    (hf : ∀ s i, seen0 ⊆ s → GrowsP s (f s i)) (ir : IRNode) (seen : List Nat)
    (h : seen0 ⊆ seen) : GrowsP seen (irItemsStage f ir seen) := by
  unfold irItemsStage
  cases ir.items with
  | none => exact List.Subset.refl _
  | some x =>
    cases x with
    | inl iid => exact growsP_mapFst _ (hf seen iid h)
    | inr ids =>
      exact growsP_mapFst (fun vs => some (jarr vs)) (seqChildren_grows f seen0 hf ids seen h)

lemma irListStage_grows (f : List Nat → Nat → Option (JVal × List Nat)) (seen0 : List Nat)
    (hf : ∀ s i, seen0 ⊆ s → GrowsP s (f s i)) (branches : Option (List Nat))
    (seen : List Nat) (h : seen0 ⊆ seen) : GrowsP seen (irListStage f branches seen) := by
  unfold irListStage
  cases branches with
  | none => exact List.Subset.refl _
  | some ids =>
    exact growsP_mapFst (fun vs => some (jarr vs)) (seqChildren_grows f seen0 hf ids seen h)

lemma irToSchemaBody_grows (heap : List IRNode)
    (f : List Nat → Nat → Option (JVal × List Nat)) (seen0 : List Nat)
    (hf : ∀ s i, seen0 ⊆ s → GrowsP s (f s i)) (ir : IRNode) (seen1 : List Nat)
    (h1 : seen0 ⊆ seen1) : GrowsP seen1 (irToSchemaBody heap f ir seen1) := by
  simp only [irToSchemaBody]
  cases irEnumResult heap ir with
  | some out => exact List.Subset.refl _
  | none =>
    obtain ⟨⟨propsOut, s2⟩, hd1, h2⟩ :=
      growsP_elim (irPropsStage_grows f seen0 hf ir seen1 h1)
    have g2 : seen0 ⊆ s2 := List.Subset.trans h1 h2
    obtain ⟨⟨apOut, s3⟩, hd2, h3⟩ := growsP_elim (irApStage_grows f seen0 hf ir s2 g2)
    have g3 : seen0 ⊆ s3 := List.Subset.trans g2 h3
    obtain ⟨⟨itemsOut, s4⟩, hd3, h4⟩ := growsP_elim (irItemsStage_grows f seen0 hf ir s3 g3)
    have g4 : seen0 ⊆ s4 := List.Subset.trans g3 h4
    obtain ⟨⟨allOut, s5⟩, hd4, h5⟩ :=
      growsP_elim (irListStage_grows f seen0 hf ir.allOf s4 g4)
    have g5 : seen0 ⊆ s5 := List.Subset.trans g4 h5
    obtain ⟨⟨anyOut, s6⟩, hd5, h6⟩ :=
      growsP_elim (irListStage_grows f seen0 hf ir.anyOf s5 g5)
    have g6 : seen0 ⊆ s6 := List.Subset.trans g5 h6
    obtain ⟨⟨oneOut, s7⟩, hd6, h7⟩ :=
      growsP_elim (irListStage_grows f seen0 hf ir.oneOf s6 g6)
    simp only [hd1, hd2, hd3, hd4, hd5, hd6]
    intro a ha
    exact h7 (h6 (h5 (h4 (h3 (h2 ha)))))

lemma unseen_mono (heap : List IRNode) {s1 s2 : List Nat} (h : s1 ⊆ s2) :
    unseenCount heap s2 ≤ unseenCount heap s1 := by
  unfold unseenCount
  apply Finset.card_le_card
  intro i hi
  simp only [Finset.mem_filter] at hi ⊢
  exact ⟨hi.1, fun hc => hi.2 (h hc)⟩

lemma unseen_cons_lt (heap : List IRNode) {seen : List Nat} {id : Nat}
    (hid : id < heap.length) (hmem : id ∉ seen) :
    unseenCount heap (id :: seen) < unseenCount heap seen := by
  unfold unseenCount
  apply Finset.card_lt_card
  rw [Finset.ssubset_def]
  constructor
  · intro i hi
    simp only [Finset.mem_filter, List.mem_cons] at hi ⊢
    exact ⟨hi.1, fun hc => hi.2 (Or.inr hc)⟩
  · intro hsub
    have hidmem : id ∈ (Finset.range heap.length).filter (fun i => i ∉ seen) := by
      simp only [Finset.mem_filter, Finset.mem_range]
      exact ⟨hid, hmem⟩
    have hbad := hsub hidmem
    rw [Finset.mem_filter] at hbad
    exact hbad.2 (List.mem_cons_self _ _)

lemma irToSchemaF_grows (heap : List IRNode) (all : List (String × Nat)) :
    ∀ (fuel : Nat) (seen : List Nat) (id : Nat), unseenCount heap seen < fuel →
      GrowsP seen (irToSchemaF heap all fuel seen id) := by
  intro fuel
  induction fuel with
  | zero => intro seen id h; exact absurd h (Nat.not_lt_zero _)
  | succ fuel ih =>
    intro seen id h
    simp only [irToSchemaF]
    split
    · exact List.Subset.refl _
    · rename_i ir hg
      split
      · exact List.Subset.refl _
      · rename_i hmem
        have hid : id < heap.length := by
          by_contra hcon
          push_neg at hcon
          rw [List.get?_eq_none.mpr hcon] at hg
          exact Option.noConfusion hg
        have hfuel : unseenCount heap (id :: seen) < fuel :=
          lt_of_lt_of_le (unseen_cons_lt heap hid hmem) (Nat.lt_succ_iff.mp h)
        have hf : ∀ s i, (id :: seen) ⊆ s →
            GrowsP s (irToSchemaF heap all fuel s i) := by
          intro s i hs
          exact ih s i (lt_of_le_of_lt (unseen_mono heap hs) hfuel)
        have hsub : seen ⊆ id :: seen := fun a ha => List.mem_cons_of_mem _ ha
        split
        · rename_i r heqr
          split
          · exact growsP_weaken hsub (irToSchemaBody_grows heap (irToSchemaF heap all fuel)
              (id :: seen) hf ir (id :: seen) (List.Subset.refl _))
          · split
            · rename_i tid hlk
              exact growsP_weaken hsub (ih (id :: seen) tid hfuel)
            · exact hsub
        · exact growsP_weaken hsub (irToSchemaBody_grows heap (irToSchemaF heap all fuel)
            (id :: seen) hf ir (id :: seen) (List.Subset.refl _))

/-- C1 (amended): the canonicalizer does terminate on every schema graph —
cyclic ones included — but because `seen` is one shared set threaded through
the whole traversal (never pruned when a call returns), not a set scoped to
the active call stack: (1) fuel `heap.length + 1` (one recursion level per
heap fragment) always produces a result, since every recursive call strictly
shrinks the set of unseen fragments; and (2) a fragment already in `seen`
returns the unknown schema immediately. -/
theorem c1_amended :
    (∀ (heap : List IRNode) (all : List (String × Nat)) (id : Nat),
      (irToSchemaF heap all (heap.length + 1) [] id).isSome = true) ∧
    (∀ (heap : List IRNode) (all : List (String × Nat)) (fuel : Nat) (seen : List Nat)
        (id : Nat) (ir : IRNode), heap.get? id = some ir → id ∈ seen →
      irToSchemaF heap all (fuel + 1) seen id = some (jobj [], seen)) := by
  constructor
  · intro heap all id
    have hcnt : unseenCount heap [] < heap.length + 1 := by
      have hle : unseenCount heap [] ≤ heap.length := by
        unfold unseenCount
        exact le_trans (Finset.card_filter_le _ _) (le_of_eq (Finset.card_range _))
      exact Nat.lt_succ_of_le hle
    obtain ⟨q, hq, _⟩ :=
      growsP_elim (irToSchemaF_grows heap all (heap.length + 1) [] id hcnt)
    rw [hq]
    rfl
  · intro heap all fuel seen id ir hg hmem
    simp only [irToSchemaF, hg]
    rw [if_pos hmem]

/-- Witness for C1 (amended): the genuinely cyclic two-fragment graph
(`A = $ref B`, `B.properties.x = A`) canonicalizes to a defined result within
fuel `heap.length + 1`, and re-entering fragment `0` while it is in `seen`
returns the unknown schema at once. -/
theorem c1_amended_witness :
    (irToSchemaF c1CycleHeap [("B", 1)] (c1CycleHeap.length + 1) [] 0).isSome = true ∧
    irToSchemaF c1CycleHeap [("B", 1)] 1 [0, 5] 0 = some (jobj [], [0, 5]) :=
  ⟨c1_amended.1 c1CycleHeap [("B", 1)] 0,
   c1_amended.2 c1CycleHeap [("B", 1)] 0 [0, 5] 0 ⟨some "#/components/schemas/B",
     none, none, false, none, none, none, none, none, none, none, none, []⟩ rfl
     (by decide)⟩

/-- Counterexample to C1 as stated: `seen` is NOT "the set of fragments
currently being canonicalized on the active call stack".  On the acyclic
graph `c1SharedHeap`, whose sibling properties `a` and `b` share fragment 1,
the source semantics (`irToSchemaF`, one shared threaded `seen`) truncates
the second sibling to the unknown schema, while the spec's stack-scoped
reading (`irToSchemaStackF`) canonicalizes both siblings fully; the two
outputs disagree on `b`. -/
theorem c1_counterexample :
    (irToSchemaF c1SharedHeap [] 3 [] 0).map Prod.fst =
      some (jobj [("type", jstr "object"),
        ("properties", jobj [("a", jobj [("type", jstr "string")]), ("b", jobj [])])]) ∧
    irToSchemaStackF c1SharedHeap [] 3 [] 0 =
      some (jobj [("type", jstr "object"),
        ("properties", jobj [("a", jobj [("type", jstr "string")]),
          ("b", jobj [("type", jstr "string")])])]) ∧
    jeqF 10
      (jobj [("type", jstr "object"),
        ("properties", jobj [("a", jobj [("type", jstr "string")]), ("b", jobj [])])])
      (jobj [("type", jstr "object"),
        ("properties", jobj [("a", jobj [("type", jstr "string")]),
          ("b", jobj [("type", jstr "string")])])]) = false :=
  ⟨rfl, rfl, by decide⟩
